import Mathlib

/-!
Verification development for the `monkey` interpreter repository
(lexer/parser/evaluator for a small dynamically-typed language).

The Go sources are shallowly embedded:
* the `token` package constants (src/interpreter/evaluator/evaluator.go,
  second compilation unit) become plain string definitions;
* the `ast` package (only its test is in the sources; the node shapes are
  fixed by the parser and evaluator code and by the specification §3.2)
  becomes the mutual inductives `Expr`/`Stmt` plus the `Node` wrapper
  mirroring `ast.Node`;
* the `object` package (absent from the sources; shapes fixed by the
  evaluator/builtin code and by the specification §3.3/§4.4) becomes
  `Obj`, `HashKey` and the type-tag constants;
* `object/environment.go` becomes an explicit heap of scopes inside `St`
  (Go `*object.Env` pointers become indices into `St.envs`);
* `evaluator.go` / `builtins.go` become `Eval` and friends.  Go's
  `object.Object` interface values may be `nil`, so evaluation results are
  `Option Obj` (`none` models the Go `nil` interface).  Go runtime panics
  (integer division by zero, slice index out of range, method calls on nil)
  are modelled by the `Res.panicked` constructor, and the unbounded
  recursion through function application is cut with a fuel parameter
  (`Res.noFuel` signals exhaustion; it corresponds to no Go behaviour).
* Go compares interface values of pointer dynamic type by pointer
  identity (`left == right` in `evalInfixExpression`).  To capture this,
  every heap-allocated object kind carries an allocation identifier drawn
  from the `St.nextId` counter; the interned singletons TRUE/FALSE/NULL
  and the per-name builtin objects need none.
-/

/-! ## Token constants (package `token`) -/

namespace token

def ILLEGAL : String := "ILLEGAL"
def EOF : String := "EOF"
/-- Identifier token kind; the misspelling is the source's. -/
def IDENTIFER : String := "IDENTIFER"
def INT : String := "INT"
def STRING : String := "STRING"
def PLUS : String := "+"
def ASSIGN : String := "="
def MINUS : String := "-"
def BANG : String := "!"
def ASTERISK : String := "*"
def SLASH : String := "/"
def LT : String := "<"
def GT : String := ">"
def EQ : String := "=="
def NEQ : String := "!="
def COMMA : String := ","
def SEMICOLON : String := ";"
def COLON : String := ":"
def LPAREN : String := "("
def RPAREN : String := ")"
def LBRACKET : String := "["
def RBRACKET : String := "]"
def LBRACE : String := "\x7b"
def RBRACE : String := "\x7d"
def FUNCTION : String := "FUNCTION"
def LET : String := "LET"
def TRUE : String := "TRUE"
def FALSE : String := "FALSE"
def IF : String := "IF"
def ELSE : String := "ELSE"
def RETURN : String := "RETURN"

end token

/-- A token: kind plus literal text (`token.Token`). -/
structure Token where
  ttype : String
  literal : String
deriving DecidableEq, Repr

/-- Keyword table of `token.LookupIdentifier`. -/
def LookupIdentifier (ident : String) : String :=
  if ident = "fn" then token.FUNCTION
  else if ident = "let" then token.LET
  else if ident = "true" then token.TRUE
  else if ident = "false" then token.FALSE
  else if ident = "if" then token.IF
  else if ident = "else" then token.ELSE
  else if ident = "return" then token.RETURN
  else token.IDENTIFER

/-! ## Abstract syntax (package `ast`)

The `ast` module itself is not among the source files; the constructors
below are exactly the node shapes the parser builds and the evaluator
consumes (spec §3.2).  `Expr.nilE` models a `nil ast.Expression`
interface value (the parser returns these on parse failures) and
`Stmt.nilStmt` the typed-nil `*ast.LetStatement` / `*ast.ReturnStatement`
pointers that `parseStatment` wraps into a non-nil `ast.Statement`
interface.  A `HashLiteral`'s pairs live in a Go map
`map[ast.Expression]ast.Expression` keyed by node pointers; the list in
`Expr.hashLit` records the map's contents, and because Go map iteration
order is unspecified, theorems about hash literals quantify over
permutations of that list. -/

mutual
inductive Expr where
  | ident (value : String)
  | intLit (value : Int)
  | boolLit (value : Bool)
  | strLit (value : String)
  | prefixE (op : String) (right : Expr)
  | infixE (op : String) (left : Expr) (right : Expr)
  | ifE (cond : Expr) (consequence : Stmt) (alternative : Option Stmt)
  | funcLit (params : List String) (body : Stmt)
  | callE (func : Expr) (args : List Expr)
  | arrayLit (elements : List Expr)
  | indexE (left : Expr) (index : Expr)
  | hashLit (pairs : List (Expr × Expr))
  | nilE
deriving Repr

inductive Stmt where
  | letS (name : String) (value : Expr)
  | returnS (value : Expr)
  | exprS (e : Expr)
  | block (stmts : List Stmt)
  | nilStmt
deriving Repr
end

/-- The `ast.Node` interface: a program, a statement or an expression. -/
inductive Node where
  | program (stmts : List Stmt)
  | stmt (s : Stmt)
  | expr (e : Expr)
deriving Repr

/-! ## Runtime objects (package `object`) -/

/-- Type-tag strings of the `object` package (spec §4.4). -/
def INTEGER_OBJ : String := "INTEGER"
def BOOLEAN_OBJ : String := "BOOLEAN"
def STRING_OBJ : String := "STRING"
def NULL_OBJ : String := "NULL"
def RETURN_VALUE_OBJ : String := "RETURN_VALUE"
def ERROR_OBJ : String := "ERROR"
def FUNCTION_OBJ : String := "FUNCTION"
def BUILTIN_OBJ : String := "BUILTIN"
def ARRAY_OBJ : String := "ARRAY"
def HASH_OBJ : String := "HASH"

/-- Modelled from the spec (§3.3, the `object` module is not among the
source files): a `HashKey` is a type tag plus a scalar; integers use their
64-bit value, booleans 0/1, strings a stable 64-bit digest of the bytes. -/
inductive HashKey where
  | intKey (v : Int)
  | boolKey (b : Bool)
  | strKey (h : Nat)
deriving DecidableEq, Repr

/-- Modelled from the spec: the stable 64-bit string digest.  The spec
requires only a deterministic 64-bit hash with equal strings mapping to
equal digests; this model uses an FNV-1a-style fold over the character
code points, reduced mod 2^64. -/
def strHash (s : String) : Nat :=
  s.data.foldl
    (fun h c => ((h ^^^ c.toNat) * 1099511628211) % (2 ^ 64))
    14695981039346656037

mutual
/-- Runtime values (`object.Object` implementations).  `id` fields model
Go allocation identity for the pointer comparisons in
`evalInfixExpression`; TRUE/FALSE/NULL are interned singletons and carry
none.  A `hash` entry stores digest, original key and value
(`object.HashPair`); the key passed the `Hashable` assertion, so it is a
real object, while values may be Go-nil. -/
inductive Obj where
  | integer (value : Int)
  | boolean (value : Bool)
  | str (id : Nat) (value : String)
  | null
  | returnValue (value : Option Obj)
  | error (message : String)
  | function (id : Nat) (params : List String) (body : Stmt) (env : Nat)
  | builtin (name : String)
  | array (id : Nat) (elements : List (Option Obj))
  | hash (id : Nat) (pairs : List HashEntry)
deriving Repr

inductive HashEntry where
  | mk (key : HashKey) (pairKey : Obj) (pairValue : Option Obj)
deriving Repr
end

def HashEntry.hkey : HashEntry → HashKey
  | .mk k _ _ => k

def HashEntry.origKey : HashEntry → Obj
  | .mk _ k _ => k

def HashEntry.value : HashEntry → Option Obj
  | .mk _ _ v => v

/-- The `Type()` method tag of an object. -/
def objType : Obj → String
  | .integer _ => INTEGER_OBJ
  | .boolean _ => BOOLEAN_OBJ
  | .str _ _ => STRING_OBJ
  | .null => NULL_OBJ
  | .returnValue _ => RETURN_VALUE_OBJ
  | .error _ => ERROR_OBJ
  | .function _ _ _ _ => FUNCTION_OBJ
  | .builtin _ => BUILTIN_OBJ
  | .array _ _ => ARRAY_OBJ
  | .hash _ _ => HASH_OBJ

/-- Go interface equality `left == right` as used in
`evalInfixExpression`: values of different dynamic types are unequal;
booleans and null are interned singletons, so they compare by value;
builtins are interned per name; the remaining kinds are heap pointers and
compare by allocation id.  Two integers never reach this comparison
(the both-integer case of the switch fires first), so that line is
inert; it is given the fresh-allocation answer. -/
def goRefEq : Obj → Obj → Bool
  | .boolean a, .boolean b => a = b
  | .null, .null => true
  | .builtin a, .builtin b => a = b
  | .str i _, .str j _ => i = j
  | .array i _, .array j _ => i = j
  | .hash i _, .hash j _ => i = j
  | .function i _ _ _, .function j _ _ _ => i = j
  | .integer _, .integer _ => false
  | .returnValue _, .returnValue _ => false
  | .error _, .error _ => false
  | _, _ => false

/-- Go `object.Hashable` assertion plus `HashKey()`: only integers,
booleans and strings are hashable. -/
def hashKeyOf : Obj → Option HashKey
  | .integer v => some (.intKey v)
  | .boolean b => some (.boolKey b)
  | .str _ s => some (.strKey (strHash s))
  | _ => none

/-! ## Environments and evaluator state -/

/-- One `object.Env`: an insertion-ordered store (the Go `map[string]
Object`, observed only through `Get`/`Set`) plus the outer link.
Stored values are `Option Obj` because `env.Set` can receive a Go-nil
object. -/
structure EnvData where
  store : List (String × Option Obj)
  outer : Option Nat
deriving Repr

/-- Evaluator state: the heap of environments (a `*object.Env` is an
index into `envs`), the allocation counter backing object identity, and
the lines printed by the `puts` builtin, in order. -/
structure St where
  envs : List EnvData
  nextId : Nat
  output : List String
deriving Repr

/-- Allocate a fresh object identity. -/
def alloc (st : St) : Nat × St :=
  (st.nextId, { st with nextId := st.nextId + 1 })

/-- Lookup in one store (Go map read `e.store[name]`). -/
def storeGet : List (String × Option Obj) → String → Option (Option Obj)
  | [], _ => none
  | (k, w) :: rest, n => if k = n then some w else storeGet rest n

/-- Write to one store (Go map write `e.store[name] = val`). -/
def storeSet : List (String × Option Obj) → String → Option Obj → List (String × Option Obj)
  | [], n, v => [(n, v)]
  | (k, w) :: rest, n, v =>
    if k = n then (k, v) :: rest else (k, w) :: storeSet rest n v

/-- `Env.Get`: look in the own store, else recurse into the outer scope.
The walk is cut by an explicit bound (callers pass `envs.length`, enough
for every chain the evaluator builds, since outer links always point to
earlier allocations).  The outer `none` covers "not found" as well as a
dangling reference or an exhausted bound, situations the evaluator never
creates. -/
def envGet (envs : List EnvData) : Nat → Nat → String → Option (Option Obj)
  | 0, _, _ => none
  | fuel + 1, ref, name =>
    match envs[ref]? with
    | none => none
    | some e =>
      match storeGet e.store name with
      | some v => some v
      | none =>
        match e.outer with
        | some o => envGet envs fuel o name
        | none => none

/-- `Env.Set`: unconditional write into the innermost scope `ref`. -/
def envSet (envs : List EnvData) (ref : Nat) (name : String) (v : Option Obj) :
    List EnvData :=
  match envs[ref]? with
  | some e => envs.set ref ⟨storeSet e.store name v, e.outer⟩
  | none => envs

/-- `object.NewClosedEnv`: allocate a fresh scope whose outer link is
`outer`; returns its reference. -/
def newClosedEnv (st : St) (outer : Nat) : Nat × St :=
  (st.envs.length, { st with envs := st.envs ++ [⟨[], some outer⟩] })

/-- Outcome of running a piece of Go code: a normal result (`Option`
because `object.Object` interface values may be nil), a runtime panic, or
fuel exhaustion (a model artefact with no Go counterpart). -/
inductive Res (α : Type) where
  | ok (value : α) : Res α
  | panicked (msg : String) : Res α
  | noFuel : Res α
deriving Repr

/-- `newError`: build an error object (format string already applied). -/
def newError (msg : String) : Obj := .error msg

/-- `isError` from evaluator.go: nil is not an error. -/
def isError : Option Obj → Bool
  | some (.error _) => true
  | _ => false

/-- `isTruthy`: NULL and FALSE are falsy, anything else truthy (the
switch compares against the interned singletons). -/
def isTruthy : Option Obj → Bool
  | some .null => false
  | some (.boolean b) => b
  | _ => true

/-- `nativeBoolToBooleanObject`. -/
def nativeBoolToBooleanObject (b : Bool) : Obj := .boolean b

/-- `unwrapReturnValue`: strip one ReturnValue wrapper if present. -/
def unwrapReturnValue : Option Obj → Option Obj
  | some (.returnValue v) => v
  | obj => obj

/-! ## Object map of hashes -/

/-- Write into an `object.Hash`'s Go map `pairs[hashed] = pair`:
replace the entry with this digest, or append a new one. -/
def hashInsert : List HashEntry → HashKey → Obj → Option Obj → List HashEntry
  | [], hk, k, v => [.mk hk k v]
  | .mk hk' k' v' :: rest, hk, k, v =>
    if hk' = hk then .mk hk k v :: rest
    else .mk hk' k' v' :: hashInsert rest hk k v

/-- Read from an `object.Hash`'s Go map: `pair, ok := Pairs[key]`. -/
def hashLookup : List HashEntry → HashKey → Option HashEntry
  | [], _ => none
  | .mk hk' k' v' :: rest, hk =>
    if hk' = hk then some (.mk hk' k' v') else hashLookup rest hk

/-! ## Rendering (`String()` of the ast module, `Inspect()` of the object
module)

Modelled from the spec: neither module is among the source files.  The
ast rendering follows §8.1 (explicit parentheses around prefix/infix
expressions) and the let/return forms visible in the ast test
(`let myVar = anotherVar;`); the object `Inspect` forms follow §4.4.
These functions are only consumed by the `puts` builtin and never
examined by a theorem. -/

def joinComma (l : List String) : String := String.intercalate ", " l

mutual
def exprString : Expr → String
  | .ident v => v
  | .intLit n => toString n
  | .boolLit b => if b then "true" else "false"
  | .strLit s => s
  | .prefixE op r => "(" ++ op ++ exprString r ++ ")"
  | .infixE op l r => "(" ++ exprString l ++ " " ++ op ++ " " ++ exprString r ++ ")"
  | .ifE c cons alt =>
    "if" ++ exprString c ++ " " ++ stmtString cons ++
      (match alt with
       | some a => "else " ++ stmtString a
       | none => "")
  | .funcLit ps body => "fn(" ++ joinComma ps ++ ") " ++ stmtString body
  | .callE f args => exprString f ++ "(" ++ joinComma (exprListString args) ++ ")"
  | .arrayLit els => "[" ++ joinComma (exprListString els) ++ "]"
  | .indexE l i => "(" ++ exprString l ++ "[" ++ exprString i ++ "])"
  | .hashLit pairs => "\x7b" ++ joinComma (pairListString pairs) ++ "\x7d"
  | .nilE => ""

def exprListString : List Expr → List String
  | [] => []
  | e :: rest => exprString e :: exprListString rest

def pairListString : List (Expr × Expr) → List String
  | [] => []
  | (k, v) :: rest => (exprString k ++ ":" ++ exprString v) :: pairListString rest

def stmtString : Stmt → String
  | .letS n v => "let " ++ n ++ " = " ++ exprString v ++ ";"
  | .returnS v => "return " ++ exprString v ++ ";"
  | .exprS e => exprString e
  | .block stmts => stmtListString stmts
  | .nilStmt => ""

def stmtListString : List Stmt → String
  | [] => ""
  | s :: rest => stmtString s ++ stmtListString rest
end

mutual
def inspect : Obj → String
  | .integer v => toString v
  | .boolean b => if b then "true" else "false"
  | .str _ s => s
  | .null => "null"
  | .returnValue v => inspectOpt v
  | .error m => "ERROR: " ++ m
  | .function _ ps body _ => "fn(" ++ joinComma ps ++ ") \x7b\n" ++ stmtString body ++ "\n\x7d"
  | .builtin _ => "builtin function"
  | .array _ els => "[" ++ joinComma (inspectList els) ++ "]"
  | .hash _ entries => "\x7b" ++ joinComma (inspectEntries entries) ++ "\x7d"

def inspectOpt : Option Obj → String
  | some o => inspect o
  | none => ""

def inspectList : List (Option Obj) → List String
  | [] => []
  | o :: rest => inspectOpt o :: inspectList rest

def inspectEntries : List HashEntry → List String
  | [] => []
  | .mk _ k v :: rest => (inspect k ++ ": " ++ inspectOpt v) :: inspectEntries rest
end

/-! ## Operator semantics (evaluator.go helpers)

Go `int64` arithmetic wraps (two's complement); `wrap64` makes the
reduction explicit.  Go division truncates toward zero and panics on a
zero divisor; the most-negative-value / -1 case wraps (Go spec), which
`wrap64` of `Int.tdiv` reproduces. -/

def wrap64 (n : Int) : Int := (n + 2 ^ 63) % 2 ^ 64 - 2 ^ 63

/-- Message of a Go nil-method-call panic, used wherever the evaluator
would invoke `Type()` or `Inspect()` on a nil `object.Object`. -/
def nilDeref : String := "runtime error: invalid memory address or nil pointer dereference"

/-- `evalBangOperatorExpression`: the switch compares against the
interned TRUE/FALSE/NULL singletons; everything else (nil included) is
the default case. -/
def evalBangOperatorExpression : Option Obj → Obj
  | some (.boolean true) => .boolean false
  | some (.boolean false) => .boolean true
  | some .null => .boolean true
  | _ => .boolean false

/-- `evalMinusPrefixOperatorExpression`. -/
def evalMinusPrefixOperatorExpression : Option Obj → Res (Option Obj)
  | none => .panicked nilDeref
  | some r =>
    if objType r ≠ INTEGER_OBJ then
      .ok (some (newError ("unknown operator: -" ++ objType r)))
    else
      match r with
      | .integer v => .ok (some (.integer (wrap64 (v * -1))))
      | _ => .panicked "interface conversion"

/-- `evalPrefixExpression`. -/
def evalPrefixExpression (op : String) (right : Option Obj) : Res (Option Obj) :=
  if op = "!" then .ok (some (evalBangOperatorExpression right))
  else if op = "-" then evalMinusPrefixOperatorExpression right
  else
    match right with
    | none => .panicked nilDeref
    | some r => .ok (some (newError ("unknown operator: " ++ op ++ objType r)))

/-- `evalIntegerInfixExpression`: both operands are integers (the caller
checked the type tags; the type assertions cannot fail there). -/
def evalIntegerInfixExpression (op : String) (left right : Obj) : Res (Option Obj) :=
  match left, right with
  | .integer a, .integer b =>
    if op = "+" then .ok (some (.integer (wrap64 (a + b))))
    else if op = "-" then .ok (some (.integer (wrap64 (a - b))))
    else if op = "*" then .ok (some (.integer (wrap64 (a * b))))
    else if op = "/" then
      if b = 0 then .panicked "runtime error: integer divide by zero"
      else .ok (some (.integer (wrap64 (a.tdiv b))))
    else if op = "<" then .ok (some (nativeBoolToBooleanObject (decide (a < b))))
    else if op = ">" then .ok (some (nativeBoolToBooleanObject (decide (a > b))))
    else if op = "!=" then .ok (some (nativeBoolToBooleanObject (decide (a ≠ b))))
    else if op = "==" then .ok (some (nativeBoolToBooleanObject (decide (a = b))))
    else .ok (some (newError
      ("unknown operator: " ++ objType left ++ " " ++ op ++ " " ++ objType right)))
  | _, _ => .panicked "interface conversion"

/-- `evalStringInfixExpression`: only `+` is handled; concatenation
allocates a fresh string object. -/
def evalStringInfixExpression (op : String) (left right : Obj) (st : St) :
    Res (Option Obj) × St :=
  if op ≠ "+" then
    (.ok (some (newError
      ("unknown operator: " ++ objType left ++ " " ++ op ++ " " ++ objType right))), st)
  else
    match left, right with
    | .str _ a, .str _ b =>
      let (i, st') := alloc st
      (.ok (some (.str i (a ++ b))), st')
    | _, _ => (.panicked "interface conversion", st)

/-- Go interface comparison `left == right` on possibly-nil operands. -/
def goRefEqOpt : Option Obj → Option Obj → Bool
  | none, none => true
  | some a, some b => goRefEq a b
  | _, _ => false

/-- Cases 2-6 of the `evalInfixExpression` switch, reached once the
both-integer guard has failed.  `l` is non-nil (the first guard already
evaluated `left.Type()`), `right` may still be nil: its `Type()` is
evaluated — and panics on nil — only in the guards/messages that use it,
while the `==`/`!=` cases compare interface values directly. -/
def evalInfixSwitchTail (op : String) (l : Obj) (right : Option Obj) (st : St) :
    Res (Option Obj) × St :=
  if op = "==" then
    (.ok (some (nativeBoolToBooleanObject (goRefEqOpt (some l) right))), st)
  else if op = "!=" then
    (.ok (some (nativeBoolToBooleanObject (!goRefEqOpt (some l) right))), st)
  else if objType l = STRING_OBJ then
    match right with
    | none => (.panicked nilDeref, st)
    | some r =>
      if objType r = STRING_OBJ then
        evalStringInfixExpression op l r st
      else if objType l ≠ objType r then
        (.ok (some (newError
          ("type mismatch: " ++ objType l ++ " " ++ op ++ " " ++ objType r))), st)
      else
        (.ok (some (newError
          ("unknown operator: " ++ objType l ++ " " ++ op ++ " " ++ objType r))), st)
  else
    match right with
    | none => (.panicked nilDeref, st)
    | some r =>
      if objType l ≠ objType r then
        (.ok (some (newError
          ("type mismatch: " ++ objType l ++ " " ++ op ++ " " ++ objType r))), st)
      else
        (.ok (some (newError
          ("unknown operator: " ++ objType l ++ " " ++ op ++ " " ++ objType r))), st)

/-- `evalInfixExpression`: the top-level switch.  The first guard
evaluates `left.Type()` (nil left panics); when the left operand is an
integer the guard goes on to evaluate `right.Type()` (nil right panics);
otherwise `&&` short-circuits and control moves to the later cases. -/
def evalInfixExpression (op : String) (left right : Option Obj) (st : St) :
    Res (Option Obj) × St :=
  match left with
  | none => (.panicked nilDeref, st)
  | some l =>
    if objType l = INTEGER_OBJ then
      match right with
      | none => (.panicked nilDeref, st)
      | some r =>
        if objType r = INTEGER_OBJ then (evalIntegerInfixExpression op l r, st)
        else evalInfixSwitchTail op l (some r) st
    else evalInfixSwitchTail op l right st

/-! ## Index expressions -/

/-- `evalArrayIndexExpression`: bounds-checked; out of range yields NULL,
not an error. -/
def evalArrayIndexExpression (els : List (Option Obj)) (idx : Int) : Option Obj :=
  let mx : Int := (els.length : Int) - 1
  if idx < 0 ∨ idx > mx then some .null
  else els.getD idx.toNat none

/-- `evalHashIndexExpression`: the index must be hashable (a nil index
fails the assertion and then panics rendering its type); a missing key
yields NULL. -/
def evalHashIndexExpression (entries : List HashEntry) (index : Option Obj) :
    Res (Option Obj) :=
  match index with
  | none => .panicked nilDeref
  | some i =>
    match hashKeyOf i with
    | none => .ok (some (newError ("unusable as hash key: " ++ objType i)))
    | some hk =>
      match hashLookup entries hk with
      | none => .ok (some .null)
      | some e => .ok e.value

/-- Default case of `evalIndexExpression` (renders both type tags; a nil
index panics). -/
def indexNotSupported (l : Obj) : Option Obj → Res (Option Obj)
  | none => .panicked nilDeref
  | some i =>
    .ok (some (newError
      ("index operator not supported: " ++ objType l ++ "[" ++ objType i ++ "]")))

/-- `evalIndexExpression`. -/
def evalIndexExpression (left index : Option Obj) : Res (Option Obj) :=
  match left with
  | none => .panicked nilDeref
  | some l =>
    if objType l = ARRAY_OBJ then
      match index with
      | none => .panicked nilDeref
      | some i =>
        if objType i = INTEGER_OBJ then
          match l, i with
          | .array _ els, .integer idx => .ok (evalArrayIndexExpression els idx)
          | _, _ => .panicked "interface conversion"
        else indexNotSupported l (some i)
    else if objType l = HASH_OBJ then
      match l with
      | .hash _ entries => evalHashIndexExpression entries index
      | _ => .panicked "interface conversion"
    else indexNotSupported l index

/-! ## Builtins (builtins.go)

Each builtin receives the argument slice; `St` is threaded only for the
allocation counter (`rest`, `push`) and the `puts` output. -/

def lenFunc (args : List (Option Obj)) (st : St) : Res (Option Obj) × St :=
  if args.length ≠ 1 then
    (.ok (some (newError
      ("wrong number of arguments. got=" ++ toString args.length ++ ", want=1"))), st)
  else
    match args with
    | [some (.str _ s)] => (.ok (some (.integer (Int.ofNat s.utf8ByteSize))), st)
    | [some (.array _ els)] => (.ok (some (.integer (Int.ofNat els.length))), st)
    | [some o] => (.ok (some (newError ("argument to `len` not supported, got " ++ objType o))), st)
    | [none] => (.panicked nilDeref, st)
    | _ => (.panicked "unreachable", st)

def firstFunc (args : List (Option Obj)) (st : St) : Res (Option Obj) × St :=
  if args.length ≠ 1 then
    (.ok (some (newError
      ("wrong number of arguments. got=" ++ toString args.length ++ ", want=1"))), st)
  else
    match args with
    | [some (.array _ els)] =>
      match els with
      | [] => (.ok (some .null), st)
      | e :: _ => (.ok e, st)
    | [some o] => (.ok (some (newError ("argument to `first` must be ARRAY, got " ++ objType o))), st)
    | [none] => (.panicked nilDeref, st)
    | _ => (.panicked "unreachable", st)

def lastFunc (args : List (Option Obj)) (st : St) : Res (Option Obj) × St :=
  if args.length ≠ 1 then
    (.ok (some (newError
      ("wrong number of arguments. got=" ++ toString args.length ++ ", want=1"))), st)
  else
    match args with
    | [some (.array _ els)] =>
      match els.getLast? with
      | some e => (.ok e, st)
      | none => (.ok (some .null), st)
    | [some o] => (.ok (some (newError ("argument to `last` must be ARRAY, got " ++ objType o))), st)
    | [none] => (.panicked nilDeref, st)
    | _ => (.panicked "unreachable", st)

/-- `restFunc`: on a non-empty array, a fresh array holding a copy of
everything but the first element (`make` + `copy` in the source). -/
def restFunc (args : List (Option Obj)) (st : St) : Res (Option Obj) × St :=
  if args.length ≠ 1 then
    (.ok (some (newError
      ("wrong number of arguments. got=" ++ toString args.length ++ ", want=1"))), st)
  else
    match args with
    | [some (.array _ els)] =>
      match els with
      | [] => (.ok (some .null), st)
      | _ :: tail =>
        let (i, st') := alloc st
        (.ok (some (.array i tail)), st')
    | [some o] => (.ok (some (newError ("argument to `rest` must be ARRAY, got " ++ objType o))), st)
    | [none] => (.panicked nilDeref, st)
    | _ => (.panicked "unreachable", st)

/-- `pushFunc`: a fresh array of length+1 (`make` + `copy` + write in the
source), the input elements followed by the new element; the input array
is not written to. -/
def pushFunc (args : List (Option Obj)) (st : St) : Res (Option Obj) × St :=
  if args.length ≠ 2 then
    (.ok (some (newError
      ("wrong number of arguments. got=" ++ toString args.length ++ ", want=2"))), st)
  else
    match args with
    | [some (.array _ els), el] =>
      let (i, st') := alloc st
      (.ok (some (.array i (els ++ [el]))), st')
    | [some o, _] => (.ok (some (newError ("argument to `push` must be ARRAY, got " ++ objType o))), st)
    | [none, _] => (.panicked nilDeref, st)
    | _ => (.panicked "unreachable", st)

/-- `putsFunc`: print each argument's `Inspect` on its own line (a nil
argument would panic in `Inspect`), then return NULL. -/
def putsFunc (args : List (Option Obj)) (st : St) : Res (Option Obj) × St :=
  match args with
  | [] => (.ok (some .null), st)
  | none :: _ => (.panicked nilDeref, st)
  | some o :: rest => putsFunc rest { st with output := st.output ++ [inspect o] }

/-- The `builtins` table: maps a name to its interned builtin object. -/
def builtinsLookup (name : String) : Option Obj :=
  if name = "len" ∨ name = "first" ∨ name = "last" ∨ name = "rest" ∨
      name = "push" ∨ name = "puts"
  then some (.builtin name) else none

/-- Dispatch `fn.Fn(args...)` for a builtin object.  The default case is
unreachable: builtin objects are only ever created by `builtinsLookup`. -/
def applyBuiltin (name : String) (args : List (Option Obj)) (st : St) :
    Res (Option Obj) × St :=
  if name = "len" then lenFunc args st
  else if name = "first" then firstFunc args st
  else if name = "last" then lastFunc args st
  else if name = "rest" then restFunc args st
  else if name = "push" then pushFunc args st
  else if name = "puts" then putsFunc args st
  else (.panicked "unreachable", st)

/-! ## Identifier lookup and function environments -/

/-- `evalIdentifier`: the environment chain first, then the builtin
table, else an error object. -/
def evalIdentifier (name : String) (env : Nat) (st : St) : Option Obj :=
  match envGet st.envs (st.envs.length + 1) env name with
  | some v => v
  | none =>
    match builtinsLookup name with
    | some b => some b
    | none => some (newError ("identifier not found: " ++ name))

/-- The parameter-binding loop of `extendFunctionEnv`:
`for idx, param := range fn.Params { env.Set(param.Value, args[idx]) }`.
Parameters are bound positionally; when the arguments run out while
parameters remain, `args[idx]` is a Go slice index out of range panic
(the bindings made so far stay in the heap, as in Go). -/
def bindParamsGo (ref : Nat) : List String → List (Option Obj) → St → Res Unit × St
  | [], _, st => (.ok (), st)
  | _ :: _, [], st => (.panicked "runtime error: index out of range", st)
  | p :: ps, a :: rest, st =>
    bindParamsGo ref ps rest { st with envs := envSet st.envs ref p a }

/-- `extendFunctionEnv`: a fresh scope enclosed in the function's
captured environment, with the parameters bound. -/
def extendFunctionEnv (fnEnv : Nat) (params : List String)
    (args : List (Option Obj)) (st : St) : Res Nat × St :=
  match bindParamsGo (newClosedEnv st fnEnv).1 params args (newClosedEnv st fnEnv).2 with
  | (.ok _, st₂) => (.ok (newClosedEnv st fnEnv).1, st₂)
  | (.panicked m, st₂) => (.panicked m, st₂)
  | (.noFuel, st₂) => (.noFuel, st₂)

/-! ## The recursive evaluator

The Go helpers that loop over statements or expressions call back into
`Eval`; here they take the one-level-less evaluator `ev` as an explicit
argument (`Eval` passes `Eval fuel` from level `fuel + 1`), which makes
them structurally recursive over their lists.  `Res.noFuel` never arises
in Go; it marks that the chosen fuel was too small. -/

/-- Shape of the evaluator passed to the loop helpers. -/
abbrev EvalFn := Node → Nat → St → Res (Option Obj) × St

/-- `evalProgram`: run the statements in order, carrying the last result
(`var res object.Object` starts out nil); a ReturnValue stops and yields
its inner value, an Error stops and yields itself. -/
def evalProgramGo (ev : EvalFn) :
    List Stmt → Nat → St → Option Obj → Res (Option Obj) × St
  | [], _, st, res => (.ok res, st)
  | s :: rest, env, st, _ =>
    match ev (.stmt s) env st with
    | (.ok res, st') =>
      match res with
      | some (.returnValue v) => (.ok v, st')
      | some (.error m) => (.ok (some (.error m)), st')
      | _ => evalProgramGo ev rest env st' res
    | (.panicked m, st') => (.panicked m, st')
    | (.noFuel, st') => (.noFuel, st')

/-- `evalBlockStatement`: like `evalProgram`, but a ReturnValue or Error
is returned as-is (not unwrapped), so it keeps propagating outward. -/
def evalBlockStatementGo (ev : EvalFn) :
    List Stmt → Nat → St → Option Obj → Res (Option Obj) × St
  | [], _, st, result => (.ok result, st)
  | s :: rest, env, st, _ =>
    match ev (.stmt s) env st with
    | (.ok result, st') =>
      match result with
      | some (.returnValue v) => (.ok (some (.returnValue v)), st')
      | some (.error m) => (.ok (some (.error m)), st')
      | _ => evalBlockStatementGo ev rest env st' result
    | (.panicked m, st') => (.panicked m, st')
    | (.noFuel, st') => (.noFuel, st')

/-- `evalExpressions`: left-to-right; the accumulator is the `res` slice.
On the first erroneous sub-evaluation the whole call returns the
one-element slice holding that error, and nothing further is evaluated. -/
def evalExpressionsGo (ev : EvalFn) :
    List Expr → Nat → St → List (Option Obj) → Res (List (Option Obj)) × St
  | [], _, st, acc => (.ok acc, st)
  | e :: rest, env, st, acc =>
    match ev (.expr e) env st with
    | (.ok v, st') =>
      if isError v then (.ok [v], st')
      else evalExpressionsGo ev rest env st' (acc ++ [v])
    | (.panicked m, st') => (.panicked m, st')
    | (.noFuel, st') => (.noFuel, st')

/-- `evalHashLiteral`'s loop over the AST map's pairs, in the order the
Go map iterator happens to produce them (`pairs` is that order); the
finished map becomes a fresh Hash object. -/
def evalHashLiteralGo (ev : EvalFn) :
    List (Expr × Expr) → Nat → St → List HashEntry → Res (Option Obj) × St
  | [], _, st, pairs =>
    let (i, st') := alloc st
    (.ok (some (.hash i pairs)), st')
  | (keyNode, valNode) :: rest, env, st, pairs =>
    match ev (.expr keyNode) env st with
    | (.ok key, st₁) =>
      if isError key then (.ok key, st₁)
      else
        match key with
        | none => (.panicked nilDeref, st₁)
        | some k =>
          match hashKeyOf k with
          | none => (.ok (some (newError ("unusable as hash key: " ++ objType k))), st₁)
          | some hk =>
            match ev (.expr valNode) env st₁ with
            | (.ok val, st₂) =>
              if isError val then (.ok val, st₂)
              else evalHashLiteralGo ev rest env st₂ (hashInsert pairs hk k val)
            | (.panicked m, st₂) => (.panicked m, st₂)
            | (.noFuel, st₂) => (.noFuel, st₂)
    | (.panicked m, st₁) => (.panicked m, st₁)
    | (.noFuel, st₁) => (.noFuel, st₁)

/-- `evalIfExpression`. -/
def evalIfExpression (ev : EvalFn) (cond : Expr) (consequence : Stmt)
    (alternative : Option Stmt) (env : Nat) (st : St) : Res (Option Obj) × St :=
  match ev (.expr cond) env st with
  | (.ok condition, st₁) =>
    if isError condition then (.ok condition, st₁)
    else if isTruthy condition then ev (.stmt consequence) env st₁
    else
      match alternative with
      | some alt => ev (.stmt alt) env st₁
      | none => (.ok (some .null), st₁)
  | (.panicked m, st₁) => (.panicked m, st₁)
  | (.noFuel, st₁) => (.noFuel, st₁)

/-- `applyFunction`: user functions get a fresh enclosed environment and
one ReturnValue unwrap; builtins are invoked on the slice; anything else
(a nil callee panics rendering its type) is `not a function`. -/
def applyFunction (ev : EvalFn) (fn : Option Obj) (args : List (Option Obj))
    (st : St) : Res (Option Obj) × St :=
  match fn with
  | some (.function _ params body fnEnv) =>
    match extendFunctionEnv fnEnv params args st with
    | (.ok extRef, st₁) =>
      match ev (.stmt body) extRef st₁ with
      | (.ok evaluated, st₂) => (.ok (unwrapReturnValue evaluated), st₂)
      | (.panicked m, st₂) => (.panicked m, st₂)
      | (.noFuel, st₂) => (.noFuel, st₂)
    | (.panicked m, st₁) => (.panicked m, st₁)
    | (.noFuel, st₁) => (.noFuel, st₁)
  | some (.builtin name) => applyBuiltin name args st
  | some other => (.ok (some (newError ("not a function: " ++ objType other))), st)
  | none => (.panicked nilDeref, st)

/-- `Eval`: the main dispatch of evaluator.go.  The Go switch has no
default arm and falls through to `return nil` — reached by the
`LetStatement` arm (which binds and falls out) and by a nil `ast.Node`
(`Expr.nilE`).  A typed-nil statement pointer (`Stmt.nilStmt`) matches
its arm and panics dereferencing the node. -/
def Eval : Nat → Node → Nat → St → Res (Option Obj) × St
  | 0, _, _, st => (.noFuel, st)
  | fuel + 1, node, env, st =>
    match node with
    | .program stmts => evalProgramGo (Eval fuel) stmts env st none
    | .stmt (.exprS e) => Eval fuel (.expr e) env st
    | .stmt (.block stmts) => evalBlockStatementGo (Eval fuel) stmts env st none
    | .stmt (.returnS e) =>
      match Eval fuel (.expr e) env st with
      | (.ok val, st₁) =>
        if isError val then (.ok val, st₁)
        else (.ok (some (.returnValue val)), st₁)
      | (.panicked m, st₁) => (.panicked m, st₁)
      | (.noFuel, st₁) => (.noFuel, st₁)
    | .stmt (.letS name e) =>
      match Eval fuel (.expr e) env st with
      | (.ok val, st₁) =>
        if isError val then (.ok val, st₁)
        else (.ok none, { st₁ with envs := envSet st₁.envs env name val })
      | (.panicked m, st₁) => (.panicked m, st₁)
      | (.noFuel, st₁) => (.noFuel, st₁)
    | .stmt .nilStmt => (.panicked nilDeref, st)
    | .expr (.intLit n) => (.ok (some (.integer n)), st)
    | .expr (.boolLit b) => (.ok (some (nativeBoolToBooleanObject b)), st)
    | .expr (.strLit s) =>
      let (i, st₁) := alloc st
      (.ok (some (.str i s)), st₁)
    | .expr (.prefixE op r) =>
      match Eval fuel (.expr r) env st with
      | (.ok right, st₁) =>
        if isError right then (.ok right, st₁)
        else (evalPrefixExpression op right, st₁)
      | (.panicked m, st₁) => (.panicked m, st₁)
      | (.noFuel, st₁) => (.noFuel, st₁)
    | .expr (.infixE op le re) =>
      match Eval fuel (.expr le) env st with
      | (.ok left, st₁) =>
        if isError left then (.ok left, st₁)
        else
          match Eval fuel (.expr re) env st₁ with
          | (.ok right, st₂) =>
            if isError right then (.ok right, st₂)
            else evalInfixExpression op left right st₂
          | (.panicked m, st₂) => (.panicked m, st₂)
          | (.noFuel, st₂) => (.noFuel, st₂)
      | (.panicked m, st₁) => (.panicked m, st₁)
      | (.noFuel, st₁) => (.noFuel, st₁)
    | .expr (.ifE c cons alt) => evalIfExpression (Eval fuel) c cons alt env st
    | .expr (.ident name) => (.ok (evalIdentifier name env st), st)
    | .expr (.funcLit params body) =>
      let (i, st₁) := alloc st
      (.ok (some (.function i params body env)), st₁)
    | .expr (.callE fe argEs) =>
      match Eval fuel (.expr fe) env st with
      | (.ok fn, st₁) =>
        if isError fn then (.ok fn, st₁)
        else
          match evalExpressionsGo (Eval fuel) argEs env st₁ [] with
          | (.ok args, st₂) =>
            match args with
            | [a] =>
              if isError a then (.ok a, st₂)
              else applyFunction (Eval fuel) fn [a] st₂
            | _ => applyFunction (Eval fuel) fn args st₂
          | (.panicked m, st₂) => (.panicked m, st₂)
          | (.noFuel, st₂) => (.noFuel, st₂)
      | (.panicked m, st₁) => (.panicked m, st₁)
      | (.noFuel, st₁) => (.noFuel, st₁)
    | .expr (.arrayLit els) =>
      match evalExpressionsGo (Eval fuel) els env st [] with
      | (.ok elsV, st₁) =>
        match elsV with
        | [a] =>
          if isError a then (.ok a, st₁)
          else
            let (i, st₂) := alloc st₁
            (.ok (some (.array i [a])), st₂)
        | _ =>
          let (i, st₂) := alloc st₁
          (.ok (some (.array i elsV)), st₂)
      | (.panicked m, st₁) => (.panicked m, st₁)
      | (.noFuel, st₁) => (.noFuel, st₁)
    | .expr (.indexE le ie) =>
      match Eval fuel (.expr le) env st with
      | (.ok left, st₁) =>
        if isError left then (.ok left, st₁)
        else
          match Eval fuel (.expr ie) env st₁ with
          | (.ok idx, st₂) =>
            if isError idx then (.ok idx, st₂)
            else (evalIndexExpression left idx, st₂)
          | (.panicked m, st₂) => (.panicked m, st₂)
          | (.noFuel, st₂) => (.noFuel, st₂)
      | (.panicked m, st₁) => (.panicked m, st₁)
      | (.noFuel, st₁) => (.noFuel, st₁)
    | .expr (.hashLit pairs) => evalHashLiteralGo (Eval fuel) pairs env st []
    | .expr .nilE => (.ok none, st)

/-! ## Parser (src/unnamed/part_000, package `parser`)

The lexer module is not among the source files; following the spec's
lexer-totality law ("for every input, `next_token` eventually yields
`EOF` and thereafter only `EOF`"), the token stream is a finite list
padded with EOF tokens forever.  `Parser.pos` counts the `NextToken`
calls made so far. -/

/-- Modelled from the spec: the lexer as a total token stream — the
finite token list followed by EOF indefinitely. -/
def lexAt (toks : List Token) (i : Nat) : Token := toks.getD i ⟨token.EOF, ""⟩

structure Parser where
  toks : List Token
  pos : Nat
  currT : Token
  peekT : Token
  errors : List String
deriving Repr

/-- `p.nextToken()`. -/
def pNextToken (p : Parser) : Parser :=
  { p with currT := p.peekT, peekT := lexAt p.toks p.pos, pos := p.pos + 1 }

/-- `parser.New`: zero-valued current/peek tokens, then two `nextToken`
calls. -/
def pNew (toks : List Token) : Parser :=
  pNextToken (pNextToken ⟨toks, 0, ⟨"", ""⟩, ⟨"", ""⟩, []⟩)

def pAddError (p : Parser) (msg : String) : Parser :=
  { p with errors := p.errors ++ [msg] }

def pCurrTIs (p : Parser) (t : String) : Bool := p.currT.ttype = t

def pPeekTokenIs (p : Parser) (t : String) : Bool := p.peekT.ttype = t

def pPeekError (p : Parser) (t : String) : Parser :=
  pAddError p ("expected next token to be " ++ t ++ ", got " ++ p.peekT.ttype ++ " instead")

/-- `p.expectPeek(t)`: advance on a match, else record an error. -/
def pExpectPeek (p : Parser) (t : String) : Bool × Parser :=
  if pPeekTokenIs p t then (true, pNextToken p) else (false, pPeekError p t)

/-- Precedence ladder (the source's iota block; the source's `PREFIX`
constant is named `PREFIXPREC` here). -/
def LOWEST : Nat := 1
def EQUALS : Nat := 2
def LESSGREATER : Nat := 3
def SUM : Nat := 4
def PRODUCT : Nat := 5
def PREFIXPREC : Nat := 6
def CALL : Nat := 7
def INDEX : Nat := 8

/-- The `precedences` map. -/
def precedences (t : String) : Option Nat :=
  if t = token.EQ then some EQUALS
  else if t = token.NEQ then some EQUALS
  else if t = token.LT then some LESSGREATER
  else if t = token.GT then some LESSGREATER
  else if t = token.PLUS then some SUM
  else if t = token.MINUS then some SUM
  else if t = token.ASTERISK then some PRODUCT
  else if t = token.SLASH then some PRODUCT
  else if t = token.LPAREN then some CALL
  else if t = token.LBRACKET then some INDEX
  else none

def pPeekPrecendence (p : Parser) : Nat :=
  match precedences p.peekT.ttype with
  | some n => n
  | none => LOWEST

def pCurrPrecendence (p : Parser) : Nat :=
  match precedences p.currT.ttype with
  | some n => n
  | none => LOWEST

/-- Token kinds registered in `prefixParseFns`. -/
def hasPrefixFn (t : String) : Bool :=
  t = token.IDENTIFER || t = token.INT || t = token.BANG || t = token.MINUS ||
  t = token.TRUE || t = token.FALSE || t = token.LPAREN || t = token.IF ||
  t = token.FUNCTION || t = token.STRING || t = token.LBRACKET || t = token.LBRACE

/-- Token kinds registered in `infixParseFns`. -/
def hasInfixFn (t : String) : Bool :=
  t = token.PLUS || t = token.MINUS || t = token.ASTERISK || t = token.SLASH ||
  t = token.EQ || t = token.NEQ || t = token.LT || t = token.GT ||
  t = token.LPAREN || t = token.LBRACKET

/-- `parseIdentifier` (leaf handler). -/
def parseIdentifier (p : Parser) : Expr × Parser := (.ident p.currT.literal, p)

/-- `parseBoolean` (leaf handler). -/
def parseBoolean (p : Parser) : Expr × Parser := (.boolLit (pCurrTIs p token.TRUE), p)

/-- `parseStringLiteral` (leaf handler). -/
def parseStringLiteral (p : Parser) : Expr × Parser := (.strLit p.currT.literal, p)

/-- Decimal digit run to a number (`none` on any non-digit). -/
def decDigits? (cs : List Char) : Option Nat :=
  cs.foldl
    (fun acc c =>
      match acc with
      | none => none
      | some n => if '0' ≤ c ∧ c ≤ '9' then some (n * 10 + (c.toNat - 48)) else none)
    (some 0)

/-- `strconv.ParseInt(lit, 0, 64)` on a lexer digit run: base 0 reads a
leading `0` as octal (an invalid octal digit fails the parse); the `0x`
forms cannot occur in lexer output. -/
def parseIntBase0 (s : String) : Option Nat :=
  match s.data with
  | [] => none
  | ['0'] => some 0
  | '0' :: rest =>
    rest.foldl
      (fun acc c =>
        match acc with
        | none => none
        | some n => if '0' ≤ c ∧ c ≤ '7' then some (n * 8 + (c.toNat - 48)) else none)
      (some 0)
  | cs => decDigits? cs

/-- `parseIntegerLiteral` (leaf handler): a failed or out-of-range parse
records a diagnostic and yields a nil expression. -/
def parseIntegerLiteral (p : Parser) : Expr × Parser :=
  match parseIntBase0 p.currT.literal with
  | some n =>
    if n ≤ 2 ^ 63 - 1 then (.intLit (Int.ofNat n), p)
    else (.nilE, pAddError p ("could not parse \"" ++ p.currT.literal ++ "\" as integer"))
  | none => (.nilE, pAddError p ("could not parse \"" ++ p.currT.literal ++ "\" as integer"))

/-- The trailing-semicolon scan shared by `parseLetStatement` (part_000
lines 149-151) and `parseReturnStatement` (lines 163-165):
`for !p.currTIs(token.SEMICOLON) { p.nextToken() }` — the loop tests
only for SEMICOLON; there is no EOF guard. -/
def letReturnScan : Nat → Parser → Option Parser
  | 0, _ => none
  | fuel + 1, p =>
    if !(pCurrTIs p token.SEMICOLON) then letReturnScan fuel (pNextToken p)
    else some p

/-- The comma loop of `parseFunctionParams`. -/
def paramsLoop : Nat → Parser → List String → Option (List String × Parser)
  | 0, _, _ => none
  | fuel + 1, p, acc =>
    if pPeekTokenIs p token.COMMA then
      let p₁ := pNextToken (pNextToken p)
      paramsLoop fuel p₁ (acc ++ [p₁.currT.literal])
    else some (acc, p)

/-- `parseFunctionParams`.  A failed closing-paren check makes the Go
function return a nil slice, which behaves exactly like the empty list
everywhere it is consumed. -/
def parseFunctionParams (fuel : Nat) (p : Parser) : Option (List String × Parser) :=
  match fuel with
  | 0 => none
  | fuel + 1 =>
    if pPeekTokenIs p token.RPAREN then some ([], pNextToken p)
    else
      let p₁ := pNextToken p
      match paramsLoop fuel p₁ [p₁.currT.literal] with
      | none => none
      | some (idents, p₂) =>
        match pExpectPeek p₂ token.RPAREN with
        | (true, p₃) => some (idents, p₃)
        | (false, p₃) => some ([], p₃)

/-! ### The Pratt engine and statement parsers

Each function takes a fuel argument and decrements it on entry; `none`
signals that the fuel ran out (the Go code has no such notion — a
computation that is `none` for every fuel does not terminate).
Expression results use `Expr.nilE` for Go's nil `ast.Expression` and
statement results use `Stmt.nilStmt` for the typed-nil statement
pointers; both are appended by the callers exactly as the Go interface
nil-checks (dis)allow. -/

mutual

/-- `parseExpression`: prefix dispatch, then the precedence loop.  A
missing prefix handler records the diagnostic and returns nil without
entering the loop. -/
def parseExpression : Nat → Nat → Parser → Option (Expr × Parser)
  | 0, _, _ => none
  | fuel + 1, prec, p =>
    if hasPrefixFn p.currT.ttype then
      match runPrefixFn fuel p with
      | none => none
      | some (left, p₁) => prattLoop fuel prec left p₁
    else
      some (.nilE, pAddError p ("no prefix parse function found for " ++ p.currT.ttype))

/-- Dispatch on the `prefixParseFns` registration table. -/
def runPrefixFn : Nat → Parser → Option (Expr × Parser)
  | 0, _ => none
  | fuel + 1, p =>
    let t := p.currT.ttype
    if t = token.IDENTIFER then some (parseIdentifier p)
    else if t = token.INT then some (parseIntegerLiteral p)
    else if t = token.BANG || t = token.MINUS then parsePrefixExpression fuel p
    else if t = token.TRUE || t = token.FALSE then some (parseBoolean p)
    else if t = token.LPAREN then parseGroupedExpression fuel p
    else if t = token.IF then parseIfExpression fuel p
    else if t = token.FUNCTION then parseFunctionLiteral fuel p
    else if t = token.STRING then some (parseStringLiteral p)
    else if t = token.LBRACKET then parseArrayLiteral fuel p
    else if t = token.LBRACE then parseHashLiteral fuel p
    else none

/-- The `for !p.peekTokenIs(SEMICOLON) && precedence < p.peekPrecendence()`
loop of `parseExpression`; a missing infix handler breaks out. -/
def prattLoop : Nat → Nat → Expr → Parser → Option (Expr × Parser)
  | 0, _, _, _ => none
  | fuel + 1, prec, left, p =>
    if !(pPeekTokenIs p token.SEMICOLON) ∧ prec < pPeekPrecendence p then
      if hasInfixFn p.peekT.ttype then
        let p₁ := pNextToken p
        match runInfixFn fuel left p₁ with
        | none => none
        | some (left', p₂) => prattLoop fuel prec left' p₂
      else some (left, p)
    else some (left, p)

/-- Dispatch on the `infixParseFns` registration table (`p.currT` is the
operator token: the loop advanced before calling the handler). -/
def runInfixFn : Nat → Expr → Parser → Option (Expr × Parser)
  | 0, _, _ => none
  | fuel + 1, left, p =>
    let t := p.currT.ttype
    if t = token.LPAREN then parseCallExpression fuel left p
    else if t = token.LBRACKET then parseIndexExpression fuel left p
    else if hasInfixFn t then parseInfixExpression fuel left p
    else none

/-- `parsePrefixExpression`. -/
def parsePrefixExpression : Nat → Parser → Option (Expr × Parser)
  | 0, _ => none
  | fuel + 1, p =>
    let op := p.currT.literal
    let p₁ := pNextToken p
    match parseExpression fuel PREFIXPREC p₁ with
    | none => none
    | some (right, p₂) => some (.prefixE op right, p₂)

/-- `parseInfixExpression`: right operand parsed at the operator's own
precedence (left associativity). -/
def parseInfixExpression : Nat → Expr → Parser → Option (Expr × Parser)
  | 0, _, _ => none
  | fuel + 1, left, p =>
    let op := p.currT.literal
    let prec := pCurrPrecendence p
    let p₁ := pNextToken p
    match parseExpression fuel prec p₁ with
    | none => none
    | some (right, p₂) => some (.infixE op left right, p₂)

/-- `parseGroupedExpression`. -/
def parseGroupedExpression : Nat → Parser → Option (Expr × Parser)
  | 0, _ => none
  | fuel + 1, p =>
    let p₁ := pNextToken p
    match parseExpression fuel LOWEST p₁ with
    | none => none
    | some (exp, p₂) =>
      match pExpectPeek p₂ token.RPAREN with
      | (true, p₃) => some (exp, p₃)
      | (false, p₃) => some (.nilE, p₃)

/-- `parseIfExpression`. -/
def parseIfExpression : Nat → Parser → Option (Expr × Parser)
  | 0, _ => none
  | fuel + 1, p =>
    match pExpectPeek p token.LPAREN with
    | (false, p₁) => some (.nilE, p₁)
    | (true, p₁) =>
      let p₂ := pNextToken p₁
      match parseExpression fuel LOWEST p₂ with
      | none => none
      | some (cond, p₃) =>
        match pExpectPeek p₃ token.RPAREN with
        | (false, p₄) => some (.nilE, p₄)
        | (true, p₄) =>
          match pExpectPeek p₄ token.LBRACE with
          | (false, p₅) => some (.nilE, p₅)
          | (true, p₅) =>
            match parseBlockStatement fuel p₅ with
            | none => none
            | some (cons, p₆) =>
              if pPeekTokenIs p₆ token.ELSE then
                let p₇ := pNextToken p₆
                match pExpectPeek p₇ token.LBRACE with
                | (false, p₈) => some (.nilE, p₈)
                | (true, p₈) =>
                  match parseBlockStatement fuel p₈ with
                  | none => none
                  | some (alt, p₉) => some (.ifE cond cons (some alt), p₉)
              else some (.ifE cond cons none, p₆)

/-- `parseBlockStatement`: advance past `{`, then collect statements
until `}` or EOF. -/
def parseBlockStatement : Nat → Parser → Option (Stmt × Parser)
  | 0, _ => none
  | fuel + 1, p =>
    match parseBlockLoop fuel (pNextToken p) [] with
    | none => none
    | some (stmts, p₁) => some (.block stmts, p₁)

/-- The statement loop of `parseBlockStatement`.  The source's
`if stmt != nil` guard never fires: `parseStatment` returns interface
values that are non-nil even when they wrap a typed-nil pointer, so
every result is appended. -/
def parseBlockLoop : Nat → Parser → List Stmt → Option (List Stmt × Parser)
  | 0, _, _ => none
  | fuel + 1, p, acc =>
    if !(pCurrTIs p token.RBRACE) ∧ !(pCurrTIs p token.EOF) then
      match parseStatment fuel p with
      | none => none
      | some (stmt, p₁) => parseBlockLoop fuel (pNextToken p₁) (acc ++ [stmt])
    else some (acc, p)

/-- `parseFunctionLiteral`.  A failed parameter list leaves `Params` a
nil slice (modelled as the empty list) and parsing continues. -/
def parseFunctionLiteral : Nat → Parser → Option (Expr × Parser)
  | 0, _ => none
  | fuel + 1, p =>
    match pExpectPeek p token.LPAREN with
    | (false, p₁) => some (.nilE, p₁)
    | (true, p₁) =>
      match parseFunctionParams fuel p₁ with
      | none => none
      | some (params, p₂) =>
        match pExpectPeek p₂ token.LBRACE with
        | (false, p₃) => some (.nilE, p₃)
        | (true, p₃) =>
          match parseBlockStatement fuel p₃ with
          | none => none
          | some (body, p₄) => some (.funcLit params body, p₄)

/-- `parseCallExpression` (infix handler on `(`). -/
def parseCallExpression : Nat → Expr → Parser → Option (Expr × Parser)
  | 0, _, _ => none
  | fuel + 1, function, p =>
    match parseExpressionList fuel token.RPAREN p with
    | none => none
    | some (args, p₁) => some (.callE function args, p₁)

/-- `parseExpressionList(end)`; a failed terminator makes the Go
function return a nil slice (modelled as the empty list). -/
def parseExpressionList : Nat → String → Parser → Option (List Expr × Parser)
  | 0, _, _ => none
  | fuel + 1, endTok, p =>
    if pPeekTokenIs p endTok then some ([], pNextToken p)
    else
      let p₁ := pNextToken p
      match parseExpression fuel LOWEST p₁ with
      | none => none
      | some (e, p₂) =>
        match exprListLoop fuel endTok p₂ [e] with
        | none => none
        | some (list, p₃) =>
          match pExpectPeek p₃ endTok with
          | (true, p₄) => some (list, p₄)
          | (false, p₄) => some ([], p₄)

/-- The comma loop of `parseExpressionList`. -/
def exprListLoop : Nat → String → Parser → List Expr → Option (List Expr × Parser)
  | 0, _, _, _ => none
  | fuel + 1, endTok, p, acc =>
    if pPeekTokenIs p token.COMMA then
      let p₁ := pNextToken (pNextToken p)
      match parseExpression fuel LOWEST p₁ with
      | none => none
      | some (e, p₂) => exprListLoop fuel endTok p₂ (acc ++ [e])
    else some (acc, p)

/-- `parseArrayLiteral`. -/
def parseArrayLiteral : Nat → Parser → Option (Expr × Parser)
  | 0, _ => none
  | fuel + 1, p =>
    match parseExpressionList fuel token.RBRACKET p with
    | none => none
    | some (els, p₁) => some (.arrayLit els, p₁)

/-- `parseIndexExpression` (infix handler on `[`). -/
def parseIndexExpression : Nat → Expr → Parser → Option (Expr × Parser)
  | 0, _, _ => none
  | fuel + 1, left, p =>
    let p₁ := pNextToken p
    match parseExpression fuel LOWEST p₁ with
    | none => none
    | some (idx, p₂) =>
      match pExpectPeek p₂ token.RBRACKET with
      | (true, p₃) => some (.indexE left idx, p₃)
      | (false, p₃) => some (.nilE, p₃)

/-- `parseHashLiteral`: drive the pair loop, then require `}`.  Each
parsed pair is a fresh map entry (the map is keyed by the freshly
allocated key node, so source duplicates never merge); the list records
insertion order, which the Go map forgets. -/
def parseHashLiteral : Nat → Parser → Option (Expr × Parser)
  | 0, _ => none
  | fuel + 1, p =>
    match parseHashLoop fuel p [] with
    | none => none
    | some (none, p₁) => some (.nilE, p₁)
    | some (some pairs, p₁) =>
      match pExpectPeek p₁ token.RBRACE with
      | (true, p₂) => some (.hashLit pairs, p₂)
      | (false, p₂) => some (.nilE, p₂)

/-- The `for !p.peekTokenIs(RBRACE)` loop of `parseHashLiteral`; the
inner `Option` is Go's nil result on a failed `:` or `,` expectation. -/
def parseHashLoop : Nat → Parser → List (Expr × Expr) →
    Option (Option (List (Expr × Expr)) × Parser)
  | 0, _, _ => none
  | fuel + 1, p, acc =>
    if !(pPeekTokenIs p token.RBRACE) then
      let p₁ := pNextToken p
      match parseExpression fuel LOWEST p₁ with
      | none => none
      | some (key, p₂) =>
        match pExpectPeek p₂ token.COLON with
        | (false, p₃) => some (none, p₃)
        | (true, p₃) =>
          let p₄ := pNextToken p₃
          match parseExpression fuel LOWEST p₄ with
          | none => none
          | some (value, p₅) =>
            if !(pPeekTokenIs p₅ token.RBRACE) then
              match pExpectPeek p₅ token.COMMA with
              | (false, p₆) => some (none, p₆)
              | (true, p₆) => parseHashLoop fuel p₆ (acc ++ [(key, value)])
            else parseHashLoop fuel p₅ (acc ++ [(key, value)])
    else some (some acc, p)

/-- `parseLetStatement`: IDENTIFIER, `=`, the value expression, then the
unguarded scan to `;`. -/
def parseLetStatement : Nat → Parser → Option (Stmt × Parser)
  | 0, _ => none
  | fuel + 1, p =>
    match pExpectPeek p token.IDENTIFER with
    | (false, p₁) => some (.nilStmt, p₁)
    | (true, p₁) =>
      let name := p₁.currT.literal
      match pExpectPeek p₁ token.ASSIGN with
      | (false, p₂) => some (.nilStmt, p₂)
      | (true, p₂) =>
        let p₃ := pNextToken p₂
        match parseExpression fuel LOWEST p₃ with
        | none => none
        | some (value, p₄) =>
          match letReturnScan fuel p₄ with
          | none => none
          | some p₅ => some (.letS name value, p₅)

/-- `parseReturnStatement`: advance, the value expression, the same
unguarded scan to `;`. -/
def parseReturnStatement : Nat → Parser → Option (Stmt × Parser)
  | 0, _ => none
  | fuel + 1, p =>
    let p₁ := pNextToken p
    match parseExpression fuel LOWEST p₁ with
    | none => none
    | some (value, p₂) =>
      match letReturnScan fuel p₂ with
      | none => none
      | some p₃ => some (.returnS value, p₃)

/-- `parseExpressionStatment` (the source's spelling): optional trailing
semicolon. -/
def parseExpressionStatment : Nat → Parser → Option (Stmt × Parser)
  | 0, _ => none
  | fuel + 1, p =>
    match parseExpression fuel LOWEST p with
    | none => none
    | some (e, p₁) =>
      let p₂ := if pPeekTokenIs p₁ token.SEMICOLON then pNextToken p₁ else p₁
      some (.exprS e, p₂)

/-- `parseStatment` (the source's spelling): dispatch on the current
token kind. -/
def parseStatment : Nat → Parser → Option (Stmt × Parser)
  | 0, _ => none
  | fuel + 1, p =>
    if pCurrTIs p token.LET then parseLetStatement fuel p
    else if pCurrTIs p token.RETURN then parseReturnStatement fuel p
    else parseExpressionStatment fuel p

end

/-- The statement loop of `ParseProgram`; like the block loop, the
`stmt != nil` interface check never filters, so every result is
appended. -/
def parseProgramLoop : Nat → Parser → List Stmt → Option (List Stmt × Parser)
  | 0, _, _ => none
  | fuel + 1, p, acc =>
    if !(pCurrTIs p token.EOF) then
      match parseStatment fuel p with
      | none => none
      | some (stmt, p₁) => parseProgramLoop fuel (pNextToken p₁) (acc ++ [stmt])
    else some (acc, p)

/-- `ParseProgram` on a token stream. -/
def ParseProgram (fuel : Nat) (toks : List Token) : Option (List Stmt × Parser) :=
  parseProgramLoop fuel (pNew toks) []

/-! ## Inputs and auxiliary definitions for the claim theorems -/

/-- A fresh one-scope state: the root environment the driver creates. -/
def St0 : St := ⟨[⟨[], none⟩], 0, []⟩

/-- The parameter-binding loop as a pure fold over one store (the heap
version touches only the fresh scope's entry). -/
def bindFold : List (String × Option Obj) → List String → List (Option Obj) →
    List (String × Option Obj)
  | s, [], _ => s
  | s, _ :: _, [] => s
  | s, p :: ps, a :: as => bindFold (storeSet s p a) ps as

/-- Return statement for 10 nested under `n` blocks. -/
def nestBlocks : Nat → Stmt
  | 0 => .returnS (.intLit 10)
  | n + 1 => .block [nestBlocks n]

/-- The nested-if seed program
`if (10 > 1) { if (10 > 1) { return 10; } return 1; }`. -/
def nestedIfProgram : List Stmt :=
  [.exprS (.ifE (.infixE ">" (.intLit 10) (.intLit 1))
    (.block [
      .exprS (.ifE (.infixE ">" (.intLit 10) (.intLit 1))
        (.block [.returnS (.intLit 10)]) none),
      .returnS (.intLit 1)]) none)]

/-- Token stream of the source `let x = 5` — no trailing semicolon; the
(spec-modelled) lexer pads with EOF forever. -/
def c3letToks : List Token :=
  [⟨token.LET, "let"⟩, ⟨token.IDENTIFER, "x"⟩, ⟨token.ASSIGN, "="⟩, ⟨token.INT, "5"⟩]

/-- Token stream of the source `return 5` — no trailing semicolon. -/
def c3retToks : List Token :=
  [⟨token.RETURN, "return"⟩, ⟨token.INT, "5"⟩]

def c3pLet : Parser := pNew c3letToks

/-- Parser state on reaching the semicolon scan of `let x = 5`. -/
def c3pLetScan : Parser := ⟨c3letToks, 5, ⟨token.INT, "5"⟩, ⟨token.EOF, ""⟩, []⟩

def c3pRet : Parser := pNew c3retToks

/-- Parser state on reaching the semicolon scan of `return 5`. -/
def c3pRetScan : Parser := ⟨c3retToks, 3, ⟨token.INT, "5"⟩, ⟨token.EOF, ""⟩, []⟩

/-! ## Claims -/



/-- Reference identity compares unequal across distinct type tags (two Go
interface values with different dynamic types are never equal). -/
theorem goRefEq_false_of_type_ne (l r : Obj) (h : objType l ≠ objType r) :
    goRefEq l r = false := by
  cases l <;> cases r <;> simp_all [objType, goRefEq]

/-- Reduction of `evalInfixExpression` to its tail cases whenever the
operands are not both integers. -/
theorem evalInfixExpression_eq_tail (op : String) (l r : Obj) (st : St)
    (hnot : ¬(objType l = INTEGER_OBJ ∧ objType r = INTEGER_OBJ)) :
    evalInfixExpression op (some l) (some r) st = evalInfixSwitchTail op l (some r) st := by
  unfold evalInfixExpression
  by_cases hLi : objType l = INTEGER_OBJ
  · have hRi : ¬ objType r = INTEGER_OBJ := fun hr => hnot ⟨hLi, hr⟩
    simp [hLi, hRi]
  · simp [hLi]

/-- Tail of the infix switch for mismatched type tags and an operator
other than `==`/`!=`: the `type mismatch` error. -/
theorem evalInfixSwitchTail_mismatch (op : String) (l r : Obj) (st : St)
    (h : objType l ≠ objType r) (heq : op ≠ "==") (hneq : op ≠ "!=") :
    evalInfixSwitchTail op l (some r) st
      = (.ok (some (.error ("type mismatch: " ++ objType l ++ " " ++ op ++ " " ++ objType r))), st) := by
  unfold evalInfixSwitchTail
  by_cases hLs : objType l = STRING_OBJ
  · have hRs : ¬ objType r = STRING_OBJ := fun hr => h (hLs.trans hr.symm)
    simp [heq, hneq, hLs, hRs, h, newError]
    intro hx
    exact absurd hx.symm hRs
  · simp [heq, hneq, hLs, h, newError]

/-- C1 counterexample: on two strings, `==` does not yield the error
`unknown operator: STRING == STRING` demanded by the claim.  The
`==`/`!=` cases of `evalInfixExpression` precede the string case, so
`"a" == "b"` evaluates to the boolean false (Go pointer comparison of two
fresh allocations). -/
theorem c1_counterexample :
    Eval 5 (.program [.exprS (.infixE "==" (.strLit "a") (.strLit "b"))]) 0 St0
      = (.ok (some (.boolean false)), { St0 with nextId := 2 }) ∧
    (Eval 5 (.program [.exprS (.infixE "==" (.strLit "a") (.strLit "b"))]) 0 St0).1
      ≠ .ok (some (.error "unknown operator: STRING == STRING")) := by
  refine ⟨rfl, ?_⟩
  rw [show (Eval 5 (.program [.exprS (.infixE "==" (.strLit "a") (.strLit "b"))]) 0 St0).1
      = .ok (some (.boolean false)) from rfl]
  simp

/-- C1 (amended): on two string objects every operator other than `+`,
`==` and `!=` yields `unknown operator: STRING <op> STRING`; `+` yields
the freshly allocated concatenation; `==` and `!=` fall through to the
reference-identity cases and yield a boolean comparing allocation
identity — never an error. -/
theorem c1_string_operators (op : String) (i j : Nat) (a b : String) (st : St)
    (hplus : op ≠ "+") (heq : op ≠ "==") (hneq : op ≠ "!=") :
    evalInfixExpression op (some (.str i a)) (some (.str j b)) st
      = (.ok (some (.error ("unknown operator: " ++ STRING_OBJ ++ " " ++ op ++ " " ++ STRING_OBJ))), st) ∧
    evalInfixExpression "+" (some (.str i a)) (some (.str j b)) st
      = (.ok (some (.str st.nextId (a ++ b))), { st with nextId := st.nextId + 1 }) ∧
    evalInfixExpression "==" (some (.str i a)) (some (.str j b)) st
      = (.ok (some (.boolean (decide (i = j)))), st) ∧
    evalInfixExpression "!=" (some (.str i a)) (some (.str j b)) st
      = (.ok (some (.boolean (!decide (i = j)))), st) := by
  refine ⟨?_, rfl, rfl, rfl⟩
  simp [evalInfixExpression, evalInfixSwitchTail, evalStringInfixExpression, objType,
    hplus, heq, hneq, newError, STRING_OBJ, INTEGER_OBJ]

/-- C1 witness: `-` on two strings produces the unknown-operator error. -/
theorem c1_string_operators_witness :
    evalInfixExpression "-" (some (.str 0 "a")) (some (.str 1 "b")) St0
      = (.ok (some (.error ("unknown operator: " ++ STRING_OBJ ++ " " ++ "-" ++ " " ++ STRING_OBJ))), St0) :=
  (c1_string_operators "-" 0 1 "a" "b" St0 (by decide) (by decide) (by decide)).1

/-- C2 counterexample: `5 == true` — named by the claim as an instance of
the type-mismatch error — actually evaluates to the boolean false: the
`==` case of `evalInfixExpression` precedes the type-mismatch case, and
cross-type reference identity is always false. -/
theorem c2_counterexample :
    Eval 5 (.program [.exprS (.infixE "==" (.intLit 5) (.boolLit true))]) 0 St0
      = (.ok (some (.boolean false)), St0) ∧
    (Eval 5 (.program [.exprS (.infixE "==" (.intLit 5) (.boolLit true))]) 0 St0).1
      ≠ .ok (some (.error "type mismatch: INTEGER == BOOLEAN")) := by
  refine ⟨rfl, ?_⟩
  rw [show (Eval 5 (.program [.exprS (.infixE "==" (.intLit 5) (.boolLit true))]) 0 St0).1
      = .ok (some (.boolean false)) from rfl]
  simp

/-- C2 (amended): on operands with different type tags, every operator
other than `==`/`!=` yields `type mismatch: <L> <op> <R>`, while `==`
yields FALSE and `!=` yields TRUE (cross-type reference identity is
always false) — never an error for those two. -/
theorem c2_type_mismatch (op : String) (l r : Obj) (st : St)
    (h : objType l ≠ objType r) (heq : op ≠ "==") (hneq : op ≠ "!=") :
    evalInfixExpression op (some l) (some r) st
      = (.ok (some (.error ("type mismatch: " ++ objType l ++ " " ++ op ++ " " ++ objType r))), st) ∧
    evalInfixExpression "==" (some l) (some r) st = (.ok (some (.boolean false)), st) ∧
    evalInfixExpression "!=" (some l) (some r) st = (.ok (some (.boolean true)), st) := by
  have hnot : ¬(objType l = INTEGER_OBJ ∧ objType r = INTEGER_OBJ) :=
    fun ⟨h1, h2⟩ => h (h1.trans h2.symm)
  have hg : goRefEq l r = false := goRefEq_false_of_type_ne l r h
  refine ⟨?_, ?_, ?_⟩
  · exact (evalInfixExpression_eq_tail op l r st hnot).trans
      (evalInfixSwitchTail_mismatch op l r st h heq hneq)
  · rw [evalInfixExpression_eq_tail "==" l r st hnot]
    unfold evalInfixSwitchTail
    simp [goRefEqOpt, hg, nativeBoolToBooleanObject]
  · rw [evalInfixExpression_eq_tail "!=" l r st hnot]
    unfold evalInfixSwitchTail
    simp [goRefEqOpt, hg, nativeBoolToBooleanObject]

/-- C2 witness: `5 + true` is the type-mismatch error. -/
theorem c2_type_mismatch_witness :
    evalInfixExpression "+" (some (.integer 5)) (some (.boolean true)) St0
      = (.ok (some (.error ("type mismatch: " ++ objType (Obj.integer 5) ++ " " ++ "+" ++ " "
          ++ objType (Obj.boolean true)))), St0) :=
  (c2_type_mismatch "+" (.integer 5) (.boolean true) St0 (by decide) (by decide) (by decide)).1

/-- C4: integer division by a zero divisor is a Go runtime panic, not a
runtime Error value — the host exception aborts evaluation (the process
has no recover), exactly where the claim demands the Error value
`division by zero`.  Shown at the cited helper for every dividend, at an
infix expression for every fuel/environment/state, and at the concrete
program `1 / 0;`. -/
theorem c4_div_zero (a : Int) (env : Nat) (st : St) (fuel : Nat) :
    evalIntegerInfixExpression "/" (.integer a) (.integer 0)
      = .panicked "runtime error: integer divide by zero" ∧
    Eval (fuel + 2) (.expr (.infixE "/" (.intLit a) (.intLit 0))) env st
      = (.panicked "runtime error: integer divide by zero", st) ∧
    Eval 5 (.program [.exprS (.infixE "/" (.intLit 1) (.intLit 0))]) 0 St0
      = (.panicked "runtime error: integer divide by zero", St0) := by
  exact ⟨rfl, rfl, rfl⟩

/-- C9: the `push` builtin returns a fresh array (a new allocation id)
whose elements are exactly the input's elements followed by the pushed
value; the state apart from the allocation counter — and in particular
the input array object — is untouched. -/
theorem c9_push (i : Nat) (els : List (Option Obj)) (v : Option Obj) (st : St) :
    pushFunc [some (.array i els), v] st
      = (.ok (some (.array st.nextId (els ++ [v]))), { st with nextId := st.nextId + 1 }) ∧
    (pushFunc [some (.array i els), v] st).2.envs = st.envs ∧
    (pushFunc [some (.array i els), v] st).2.output = st.output := by
  exact ⟨rfl, rfl, rfl⟩


/-! ### Store and parameter-binding lemmas -/

theorem storeGet_storeSet_self (s : List (String × Option Obj)) (n : String) (v : Option Obj) :
    storeGet (storeSet s n v) n = some v := by
  induction s with
  | nil => simp [storeSet, storeGet]
  | cons kv rest ih =>
    obtain ⟨k, w⟩ := kv
    by_cases hk : k = n
    · simp [storeSet, storeGet, hk]
    · simp [storeSet, storeGet, hk, ih]

theorem storeGet_storeSet_other (s : List (String × Option Obj)) (n n' : String)
    (v : Option Obj) (h : n' ≠ n) : storeGet (storeSet s n v) n' = storeGet s n' := by
  have hne : ¬ n = n' := fun hx => h hx.symm
  induction s with
  | nil => simp [storeSet, storeGet, hne]
  | cons kv rest ih =>
    obtain ⟨k, w⟩ := kv
    by_cases hk : k = n
    · subst hk
      simp [storeSet, storeGet, hne]
    · simp [storeSet, storeGet, hk, ih]



theorem bindFold_other : ∀ (ps : List String) (as : List (Option Obj))
    (s : List (String × Option Obj)) (name : String), name ∉ ps →
    storeGet (bindFold s ps as) name = storeGet s name := by
  intro ps
  induction ps with
  | nil => intro as s name _; cases as <;> rfl
  | cons p ps ih =>
    intro as s name hn
    cases as with
    | nil => rfl
    | cons a as =>
      have hnp : name ≠ p := fun hx => hn (hx ▸ List.mem_cons_self p ps)
      have hnm : name ∉ ps := fun hx => hn (List.mem_cons_of_mem p hx)
      calc storeGet (bindFold (storeSet s p a) ps as) name
          = storeGet (storeSet s p a) name := ih as (storeSet s p a) name hnm
        _ = storeGet s name := storeGet_storeSet_other s p name a hnp

theorem bindFold_lookup : ∀ (ps : List String) (as : List (Option Obj))
    (s : List (String × Option Obj)), ps.Nodup →
    ∀ i (hi : i < ps.length) (hi' : i < as.length),
      storeGet (bindFold s ps as) (ps.get ⟨i, hi⟩) = some (as.get ⟨i, hi'⟩) := by
  intro ps
  induction ps with
  | nil => intro as s _ i hi hi'; simp at hi
  | cons p ps ih =>
    intro as s hd i hi hi'
    cases as with
    | nil => simp at hi'
    | cons a as =>
      have hd' : ps.Nodup := (List.nodup_cons.mp hd).2
      have hp : p ∉ ps := (List.nodup_cons.mp hd).1
      cases i with
      | zero =>
        show storeGet (bindFold (storeSet s p a) ps as) p = some a
        rw [bindFold_other ps as (storeSet s p a) p hp]
        exact storeGet_storeSet_self s p a
      | succ i =>
        exact ih as (storeSet s p a) hd' i (by simp at hi; omega) (by simp at hi'; omega)

theorem bindParamsGo_append_extra (ref : Nat) : ∀ (ps : List String)
    (as extra : List (Option Obj)) (st : St), as.length = ps.length →
    bindParamsGo ref ps (as ++ extra) st = bindParamsGo ref ps as st := by
  intro ps
  induction ps with
  | nil =>
    intro as extra st h
    have : as = [] := List.eq_nil_of_length_eq_zero h
    subst this
    rfl
  | cons p ps ih =>
    intro as extra st h
    cases as with
    | nil => simp at h
    | cons a as =>
      show bindParamsGo ref ps (as ++ extra) _ = bindParamsGo ref ps as _
      exact ih as extra _ (by simp at h; omega)

theorem bindParamsGo_short (ref : Nat) : ∀ (ps : List String)
    (as : List (Option Obj)) (st : St), as.length < ps.length →
    ∃ st', bindParamsGo ref ps as st
      = (.panicked "runtime error: index out of range", st') := by
  intro ps
  induction ps with
  | nil => intro as st h; simp at h
  | cons p ps ih =>
    intro as st h
    cases as with
    | nil => exact ⟨st, rfl⟩
    | cons a as => exact ih as _ (by simp at h; omega)

theorem bindParamsGo_entry (ref : Nat) : ∀ (ps : List String)
    (as : List (Option Obj)) (st : St) (e : EnvData),
    as.length = ps.length → st.envs[ref]? = some e →
    ∃ st', bindParamsGo ref ps as st = (.ok (), st') ∧
      st'.envs[ref]? = some ⟨bindFold e.store ps as, e.outer⟩ ∧
      st'.envs.length = st.envs.length := by
  intro ps
  induction ps with
  | nil =>
    intro as st e hlen he
    have : as = [] := List.eq_nil_of_length_eq_zero hlen
    subst this
    exact ⟨st, rfl, by simpa [bindFold] using he, rfl⟩
  | cons p ps ih =>
    intro as st e hlen he
    cases as with
    | nil => simp at hlen
    | cons a as =>
      have hlt : ref < st.envs.length := (List.getElem?_eq_some.mp he).1
      have hset : envSet st.envs ref p a
          = st.envs.set ref ⟨storeSet e.store p a, e.outer⟩ := by
        unfold envSet
        rw [he]
      have hget : ({ st with envs := envSet st.envs ref p a } : St).envs[ref]?
          = some ⟨storeSet e.store p a, e.outer⟩ := by
        simp [hset, List.getElem?_set, hlt]
      obtain ⟨st', h1, h2, h3⟩ := ih as { st with envs := envSet st.envs ref p a }
        ⟨storeSet e.store p a, e.outer⟩ (by simp at hlen; omega) hget
      refine ⟨st', h1, h2, ?_⟩
      rw [h3]
      simp [hset]

/-- C5 counterexample: calling a one-parameter function with no
arguments does not produce an Error value during body evaluation — the
parameter-binding loop indexes past the argument slice and panics
(aborting the process) before the body is ever evaluated.  The panic
state still holds the freshly allocated (empty) call scope. -/
theorem c5_counterexample :
    applyFunction (Eval 5) (some (.function 0 ["x"] (.block [.exprS (.ident "x")]) 0)) [] St0
      = (.panicked "runtime error: index out of range",
         { St0 with envs := St0.envs ++ [⟨[], some 0⟩] }) ∧
    (match (applyFunction (Eval 5)
        (some (.function 0 ["x"] (.block [.exprS (.ident "x")]) 0)) [] St0).1 with
      | .ok _ => False
      | _ => True) := by
  exact ⟨rfl, trivial⟩

/-- C5 (amended): `extendFunctionEnv` binds each parameter positionally
in a fresh scope enclosed in the function's environment and ignores
surplus arguments entirely; with fewer arguments than parameters it
panics with a Go index-out-of-range error during parameter binding (no
Error value is produced and the body is never evaluated). -/
theorem c5_arity (fnEnv : Nat) (params : List String)
    (args extra : List (Option Obj)) (st : St)
    (hd : params.Nodup) (hlen : args.length = params.length) :
    extendFunctionEnv fnEnv params (args ++ extra) st
      = extendFunctionEnv fnEnv params args st ∧
    (∃ st', extendFunctionEnv fnEnv params args st = (.ok st.envs.length, st') ∧
      ∃ e, st'.envs[st.envs.length]? = some e ∧ e.outer = some fnEnv ∧
        ∀ i (hi : i < params.length) (hi' : i < args.length),
          storeGet e.store (params.get ⟨i, hi⟩) = some (args.get ⟨i, hi'⟩)) ∧
    (∀ short : List (Option Obj), short.length < params.length →
      ∃ st', extendFunctionEnv fnEnv params short st
        = (.panicked "runtime error: index out of range", st')) := by
  have hbase : ({ st with envs := st.envs ++ [⟨[], some fnEnv⟩] } : St).envs[st.envs.length]?
      = some ⟨[], some fnEnv⟩ := by
    simp
  refine ⟨?_, ?_, ?_⟩
  · unfold extendFunctionEnv
    simp only [newClosedEnv]
    rw [bindParamsGo_append_extra st.envs.length params args extra _ hlen]
  · obtain ⟨st', h1, h2, _⟩ := bindParamsGo_entry st.envs.length params args
      { st with envs := st.envs ++ [⟨[], some fnEnv⟩] } ⟨[], some fnEnv⟩ hlen hbase
    refine ⟨st', ?_, ⟨bindFold [] params args, some fnEnv⟩, h2, rfl, ?_⟩
    · unfold extendFunctionEnv
      simp only [newClosedEnv]
      rw [h1]
    · exact fun i hi hi' => bindFold_lookup params args [] hd i hi hi'
  · intro short hshort
    obtain ⟨st', h1⟩ := bindParamsGo_short st.envs.length params short
      { st with envs := st.envs ++ [⟨[], some fnEnv⟩] } hshort
    refine ⟨st', ?_⟩
    unfold extendFunctionEnv
    simp only [newClosedEnv]
    rw [h1]

/-- C5 witness: two parameters, two arguments plus one extra — the extra
argument is ignored. -/
theorem c5_arity_witness :
    extendFunctionEnv 0 ["x", "y"]
        ([some (.integer 1), some (.integer 2)] ++ [some (.integer 3)]) St0
      = extendFunctionEnv 0 ["x", "y"] [some (.integer 1), some (.integer 2)] St0 :=
  (c5_arity 0 ["x", "y"] [some (.integer 1), some (.integer 2)] [some (.integer 3)] St0
    (by decide) (by decide)).1

/-- C10: a `let` statement whose value expression evaluates without
error binds the name into the environment but itself evaluates to the Go
nil interface (`none` in this model) — not the NULL object; consequently
a program whose final (sole) statement is such a `let` evaluates to nil,
and after it the bound identifier evaluates to the stored value. -/
theorem c10_let_nil (fuel : Nat) (name : String) (e : Expr) (env : Nat) (st st' : St)
    (v : Option Obj)
    (hv : Eval fuel (.expr e) env st = (.ok v, st'))
    (he : isError v = false)
    (henv : env < st'.envs.length) :
    Eval (fuel + 1) (.stmt (.letS name e)) env st
      = (.ok none, { st' with envs := envSet st'.envs env name v }) ∧
    evalIdentifier name env { st' with envs := envSet st'.envs env name v } = v ∧
    Eval (fuel + 2) (.program [.letS name e]) env st
      = (.ok none, { st' with envs := envSet st'.envs env name v }) := by
  have h1 : Eval (fuel + 1) (.stmt (.letS name e)) env st
      = (.ok none, { st' with envs := envSet st'.envs env name v }) := by
    simp only [Eval]
    rw [hv]
    simp [he]
  refine ⟨h1, ?_, ?_⟩
  · obtain ⟨e₀, he₀⟩ : ∃ e₀, st'.envs[env]? = some e₀ :=
      ⟨st'.envs[env], List.getElem?_eq_getElem henv⟩
    have hset : envSet st'.envs env name v
        = st'.envs.set env ⟨storeSet e₀.store name v, e₀.outer⟩ := by
      unfold envSet
      rw [he₀]
    have hget : (st'.envs.set env ⟨storeSet e₀.store name v, e₀.outer⟩)[env]?
        = some ⟨storeSet e₀.store name v, e₀.outer⟩ := by
      simp [List.getElem?_set, henv]
    unfold evalIdentifier
    simp [hset, envGet, hget, storeGet_storeSet_self]
  · show evalProgramGo (Eval (fuel + 1)) [.letS name e] env st none = _
    simp only [evalProgramGo]
    rw [h1]

/-- C10 witness: `let x = 5;` as the whole program. -/
theorem c10_let_nil_witness :
    Eval 3 (.program [.letS "x" (.intLit 5)]) 0 St0
      = (.ok none, { St0 with envs := envSet St0.envs 0 "x" (some (.integer 5)) }) :=
  (c10_let_nil 1 "x" (.intLit 5) 0 St0 St0 (some (.integer 5)) rfl rfl (by decide)).2.2



/-- A ReturnValue wrapper passes through any depth of nested blocks
unmodified (and without touching the state). -/
theorem nestBlocks_ret : ∀ (n fuel env : Nat) (st : St),
    Eval (fuel + n + 2) (.stmt (nestBlocks n)) env st
      = (.ok (some (.returnValue (some (.integer 10)))), st) := by
  intro n
  induction n with
  | zero =>
    intro fuel env st
    rfl
  | succ n ih =>
    intro fuel env st
    show evalBlockStatementGo (Eval (fuel + n + 2)) [nestBlocks n] env st none = _
    simp only [evalBlockStatementGo]
    rw [ih fuel env st]



/-- C7: a ReturnWrapper produced by `return` under any nesting depth of
blocks propagates unmodified through every enclosing block
(`nestBlocks`); `applyFunction` unwraps it exactly once at the call
boundary, yielding the inner value; and at program top level
`evalProgram` unwraps once — on the spec's seed program the nested
`return 10` yields `10`. -/
theorem c7_return_unwrap :
    (∀ (n fuel env : Nat) (st : St),
      Eval (fuel + n + 2) (.stmt (nestBlocks n)) env st
        = (.ok (some (.returnValue (some (.integer 10)))), st)) ∧
    (∀ (n fuel fid fnEnv : Nat) (st : St),
      applyFunction (Eval (fuel + n + 3))
          (some (.function fid [] (nestBlocks (n + 1)) fnEnv)) [] st
        = (.ok (some (.integer 10)),
           { st with envs := st.envs ++ [⟨[], some fnEnv⟩] })) ∧
    Eval 20 (.program nestedIfProgram) 0 St0 = (.ok (some (.integer 10)), St0) := by
  refine ⟨nestBlocks_ret, ?_, rfl⟩
  intro n fuel fid fnEnv st
  have hb : Eval (fuel + n + 3) (.stmt (nestBlocks (n + 1))) st.envs.length
      { st with envs := st.envs ++ [⟨[], some fnEnv⟩] }
      = (.ok (some (.returnValue (some (.integer 10)))),
         { st with envs := st.envs ++ [⟨[], some fnEnv⟩] }) :=
    nestBlocks_ret (n + 1) fuel st.envs.length
      { st with envs := st.envs ++ [⟨[], some fnEnv⟩] }
  show (match Eval (fuel + n + 3) (.stmt (nestBlocks (n + 1))) st.envs.length
      { st with envs := st.envs ++ [⟨[], some fnEnv⟩] } with
    | (Res.ok evaluated, st₂) => (Res.ok (unwrapReturnValue evaluated), st₂)
    | (Res.panicked m, st₂) => (Res.panicked m, st₂)
    | (Res.noFuel, st₂) => (Res.noFuel, st₂))
    = ((Res.ok (some (.integer 10)) : Res (Option Obj)),
       ({ st with envs := st.envs ++ [⟨[], some fnEnv⟩] } : St))
  rw [hb]
  rfl

/-- One-step reduction of `Eval` on an array literal (definitional). -/
theorem Eval_arrayLit (fuel : Nat) (els : List Expr) (env : Nat) (st : St) :
    Eval (fuel + 1) (.expr (.arrayLit els)) env st
      = match evalExpressionsGo (Eval fuel) els env st [] with
        | (Res.ok elsV, st₁) =>
          match elsV with
          | [a] => if isError a then (Res.ok a, st₁)
                   else (Res.ok (some (.array (alloc st₁).1 [a])), (alloc st₁).2)
          | _ => (Res.ok (some (.array (alloc st₁).1 elsV)), (alloc st₁).2)
        | (Res.panicked m, st₁) => (Res.panicked m, st₁)
        | (Res.noFuel, st₁) => (Res.noFuel, st₁) := rfl

/-- One-step reduction of `Eval` on a call expression (definitional). -/
theorem Eval_callE (fuel : Nat) (fe : Expr) (argEs : List Expr) (env : Nat) (st : St) :
    Eval (fuel + 1) (.expr (.callE fe argEs)) env st
      = match Eval fuel (.expr fe) env st with
        | (Res.ok fn, st₁) =>
          if isError fn then (Res.ok fn, st₁)
          else match evalExpressionsGo (Eval fuel) argEs env st₁ [] with
            | (Res.ok args, st₂) =>
              match args with
              | [a] => if isError a then (Res.ok a, st₂)
                       else applyFunction (Eval fuel) fn [a] st₂
              | _ => applyFunction (Eval fuel) fn args st₂
            | (Res.panicked m, st₂) => (Res.panicked m, st₂)
            | (Res.noFuel, st₂) => (Res.noFuel, st₂)
        | (Res.panicked m, st₁) => (Res.panicked m, st₁)
        | (Res.noFuel, st₁) => (Res.noFuel, st₁) := rfl

/-- Decomposition of a successful, error-free `evalExpressions` run:
the accumulator is carried through untouched, and the run composes with
any continuation of the expression list. -/
theorem evalExpressionsGo_ok_decomp (ev : EvalFn) : ∀ (l : List Expr) (env : Nat)
    (st : St) (acc vals : List (Option Obj)) (st' : St),
    evalExpressionsGo ev l env st acc = (.ok vals, st') →
    (∀ v ∈ vals, isError v = false) →
    ∃ tail, vals = acc ++ tail ∧
      ∀ (acc' : List (Option Obj)) (rest2 : List Expr),
        evalExpressionsGo ev (l ++ rest2) env st acc'
          = evalExpressionsGo ev rest2 env st' (acc' ++ tail) := by
  intro l
  induction l with
  | nil =>
    intro env st acc vals st' h hv
    simp only [evalExpressionsGo] at h
    cases h
    refine ⟨[], by simp, ?_⟩
    intro acc' rest2
    simp only [List.nil_append, List.append_nil]
  | cons e l ih =>
    intro env st acc vals st' h hv
    simp only [evalExpressionsGo] at h
    rcases hev : ev (.expr e) env st with ⟨r, st₁⟩
    rw [hev] at h
    cases r with
    | ok v =>
      by_cases hErr : isError v = true
      · simp only [hErr, if_true] at h
        cases h
        exact absurd (hv v (List.mem_singleton_self v)) (by simp [hErr])
      · simp only [hErr, if_false, Bool.false_eq_true] at h
        obtain ⟨tail', ht1, ht2⟩ := ih env st₁ (acc ++ [v]) vals st' h hv
        refine ⟨v :: tail', by rw [ht1]; simp, ?_⟩
        intro acc' rest2
        show evalExpressionsGo ev ((e :: l) ++ rest2) env st acc' = _
        simp only [List.cons_append, evalExpressionsGo]
        rw [hev]
        simp only [hErr, if_false, Bool.false_eq_true, List.append_eq]
        rw [ht2 (acc' ++ [v]) rest2]
        simp
    | panicked m => simp at h
    | noFuel => simp at h

/-- C8: in `evalExpressions` (used for call arguments and array
elements), expressions are evaluated left-to-right; the first erroneous
sub-evaluation makes the whole list evaluate to the one-element slice
holding that error, with the final state that of the error point — both
the result and the state are independent of the suffix `l2`, so no
expression after the failing one (in particular no side-effecting
builtin) is evaluated.  The enclosing array literal or call then
evaluates to the same error. -/
theorem c8_error_shortcircuit (fuel : Nat) (l1 l2 : List Expr) (e : Expr) (env : Nat)
    (st st₁ st₂ : St) (vals : List (Option Obj)) (err : Option Obj)
    (h1 : evalExpressionsGo (Eval fuel) l1 env st [] = (.ok vals, st₁))
    (hv : ∀ v ∈ vals, isError v = false)
    (h2 : Eval fuel (.expr e) env st₁ = (.ok err, st₂))
    (he : isError err = true) :
    evalExpressionsGo (Eval fuel) (l1 ++ e :: l2) env st [] = (.ok [err], st₂) ∧
    Eval (fuel + 1) (.expr (.arrayLit (l1 ++ e :: l2))) env st = (.ok err, st₂) ∧
    (∀ (fe : Expr) (fn : Option Obj) (st₀ : St),
      Eval fuel (.expr fe) env st₀ = (.ok fn, st) → isError fn = false →
      Eval (fuel + 1) (.expr (.callE fe (l1 ++ e :: l2))) env st₀ = (.ok err, st₂)) := by
  obtain ⟨tail, htail, hcomp⟩ :=
    evalExpressionsGo_ok_decomp (Eval fuel) l1 env st [] vals st₁ h1 hv
  have hmain : evalExpressionsGo (Eval fuel) (l1 ++ e :: l2) env st []
      = (.ok [err], st₂) := by
    rw [hcomp [] (e :: l2)]
    simp only [List.nil_append, evalExpressionsGo]
    rw [h2]
    simp [he]
  refine ⟨hmain, ?_, ?_⟩
  · rw [Eval_arrayLit, hmain]
    simp [he]
  · intro fe fn st₀ hf hfe
    rw [Eval_callE, hf]
    simp only [hfe, if_false, Bool.false_eq_true]
    rw [hmain]
    simp [he]

/-- C8 witness: `[1, nope, 9]` — the unbound identifier in the middle
short-circuits the element list. -/
theorem c8_error_shortcircuit_witness :
    evalExpressionsGo (Eval 3) ([.intLit 1] ++ .ident "nope" :: [.intLit 9]) 0 St0 []
      = (.ok [some (.error "identifier not found: nope")], St0) :=
  (c8_error_shortcircuit 3 [.intLit 1] [.intLit 9] (.ident "nope") 0 St0 St0 St0
    [some (.integer 1)] (some (.error "identifier not found: nope"))
    rfl (by intro v hv; rw [List.mem_singleton] at hv; subst hv; rfl) rfl rfl).1

/-- C6 counterexample: the literal `{"a": 1, "a": 2}` parses to
source-order pairs `[("a",1), ("a",2)]`, but the AST stores them in a Go
map keyed by the two distinct key nodes, and `evalHashLiteral` ranges
over that map in an unspecified order.  Under the swapped iteration
order — a permutation of the source order that the Go iterator may
produce — the resulting hash holds value `1` at the key, not the later
source occurrence `2` that the claim requires. -/
theorem c6_counterexample :
    [(Expr.strLit "a", Expr.intLit 2), (Expr.strLit "a", Expr.intLit 1)].Perm
      [(Expr.strLit "a", Expr.intLit 1), (Expr.strLit "a", Expr.intLit 2)] ∧
    Eval 5 (.expr (.hashLit [(.strLit "a", .intLit 2), (.strLit "a", .intLit 1)])) 0 St0
      = (.ok (some (.hash 2 [.mk (.strKey (strHash "a")) (.str 1 "a") (some (.integer 1))])),
         { St0 with nextId := 3 }) :=
  ⟨List.Perm.swap (Expr.strLit "a", Expr.intLit 1) (Expr.strLit "a", Expr.intLit 2) [], rfl⟩

/-- C6 (amended): `evalHashLiteral` processes the pairs in the order the
Go map iterator yields them; when two pairs collide on a hash key, the
pair iterated last overwrites — whatever its source position.  Shown for
the two-pair collision literal over any key string, values and state:
the second pair of the iteration wins. -/
theorem c6_last_iterated (s : String) (n1 n2 : Int) (fuel env : Nat) (st : St) :
    Eval (fuel + 2) (.expr (.hashLit [(.strLit s, .intLit n1), (.strLit s, .intLit n2)])) env st
      = (.ok (some (.hash (st.nextId + 2)
          [.mk (.strKey (strHash s)) (.str (st.nextId + 1) s) (some (.integer n2))])),
         { st with nextId := st.nextId + 3 }) := by
  have e1 : ∀ (st' : St), Eval (fuel + 1) (.expr (.strLit s)) env st'
      = (.ok (some (.str st'.nextId s)), { st' with nextId := st'.nextId + 1 }) :=
    fun _ => rfl
  have e2 : ∀ (m : Int) (st' : St), Eval (fuel + 1) (.expr (.intLit m)) env st'
      = (.ok (some (.integer m)), st') := fun _ _ => rfl
  show evalHashLiteralGo (Eval (fuel + 1))
      [(.strLit s, .intLit n1), (.strLit s, .intLit n2)] env st [] = _
  simp only [evalHashLiteralGo, e1, e2, isError, hashKeyOf, hashInsert, alloc]
  simp







/-- The semicolon scan never terminates when no SEMICOLON is in sight:
not at the current or peek token, and nowhere in the finite token list
(beyond which the lexer yields only EOF). -/
theorem letReturnScan_none : ∀ (fuel : Nat) (p : Parser),
    (∀ t ∈ p.toks, t.ttype ≠ token.SEMICOLON) →
    p.currT.ttype ≠ token.SEMICOLON → p.peekT.ttype ≠ token.SEMICOLON →
    letReturnScan fuel p = none := by
  intro fuel
  induction fuel with
  | zero => intro p _ _ _; rfl
  | succ f ih =>
    intro p htoks hc hp
    show (if !(pCurrTIs p token.SEMICOLON) then letReturnScan f (pNextToken p)
          else some p) = none
    have hcb : pCurrTIs p token.SEMICOLON = false := by simp [pCurrTIs, hc]
    rw [hcb]
    show letReturnScan f (pNextToken p) = none
    apply ih
    · exact htoks
    · exact hp
    · show (lexAt p.toks p.pos).ttype ≠ token.SEMICOLON
      unfold lexAt
      rcases hgt : p.toks[p.pos]? with _ | t
      · simp [List.getD, hgt]
        decide
      · have hmem : t ∈ p.toks := by
          obtain ⟨hlt, heq⟩ := List.getElem?_eq_some.mp hgt
          exact heq ▸ List.getElem_mem hlt
        simp [List.getD, hgt]
        exact htoks t hmem

/-- Pratt-parse of the value expression `5` at the scan-entry state of
`let x = 5`: the integer literal, with the parser unmoved (peek is EOF,
so the precedence loop exits immediately). -/
theorem c3_expr_let_step (g : Nat) :
    parseExpression (g + 2) LOWEST c3pLetScan = some (.intLit 5, c3pLetScan) := by
  simp only [parseExpression, runPrefixFn, prattLoop]
  simp [c3pLetScan, hasPrefixFn, hasInfixFn, parseIntegerLiteral, parseIntBase0,
        decDigits?, pPeekTokenIs, pPeekPrecendence, precedences, pCurrTIs,
        token.IDENTIFER, token.INT, token.BANG, token.MINUS, token.TRUE, token.FALSE,
        token.LPAREN, token.IF, token.FUNCTION, token.STRING, token.LBRACKET,
        token.LBRACE, token.SEMICOLON, token.EOF, token.EQ, token.NEQ, token.LT,
        token.GT, token.PLUS, token.ASTERISK, token.SLASH,
        LOWEST, EQUALS, LESSGREATER, SUM, PRODUCT, PREFIXPREC, CALL, INDEX]

/-- For every fuel, parsing the `let` statement of `let x = 5` fails to
terminate: the computation reaches the unguarded semicolon scan, which
never finds a SEMICOLON. -/
theorem c3_parseLet_none : ∀ f, parseLetStatement f c3pLet = none := by
  intro f
  match f with
  | 0 => simp [parseLetStatement]
  | 1 =>
    simp [parseLetStatement, parseExpression, pExpectPeek, pPeekTokenIs, pNextToken,
      c3pLet, pNew, c3letToks, lexAt, token.IDENTIFER, token.ASSIGN, token.LET, token.INT]
  | 2 =>
    simp [parseLetStatement, parseExpression, runPrefixFn, pExpectPeek, pPeekTokenIs,
      pNextToken, c3pLet, pNew, c3letToks, lexAt, hasPrefixFn,
      token.IDENTIFER, token.ASSIGN, token.LET, token.INT, token.BANG, token.MINUS,
      token.TRUE, token.FALSE, token.LPAREN, token.IF, token.FUNCTION, token.STRING,
      token.LBRACKET, token.LBRACE]
  | (g + 3) => 
    have h4 := c3_expr_let_step g
    have hscan : letReturnScan (g + 2) c3pLetScan = none :=
      letReturnScan_none (g + 2) c3pLetScan (by decide) (by decide) (by decide)
    simp only [c3pLetScan, c3letToks] at h4 hscan
    simp only [parseLetStatement]
    simp [pExpectPeek, pPeekTokenIs, pNextToken, pAddError, pPeekError, c3pLet, pNew,
          c3letToks, lexAt, pCurrTIs, h4, hscan]

/-- Pratt-parse of the value expression `5` at the scan-entry state of
`return 5`. -/
theorem c3_expr_ret_step (g : Nat) :
    parseExpression (g + 2) LOWEST c3pRetScan = some (.intLit 5, c3pRetScan) := by
  simp only [parseExpression, runPrefixFn, prattLoop]
  simp [c3pRetScan, hasPrefixFn, hasInfixFn, parseIntegerLiteral, parseIntBase0,
        decDigits?, pPeekTokenIs, pPeekPrecendence, precedences, pCurrTIs,
        token.IDENTIFER, token.INT, token.BANG, token.MINUS, token.TRUE, token.FALSE,
        token.LPAREN, token.IF, token.FUNCTION, token.STRING, token.LBRACKET,
        token.LBRACE, token.SEMICOLON, token.EOF, token.EQ, token.NEQ, token.LT,
        token.GT, token.PLUS, token.ASTERISK, token.SLASH,
        LOWEST, EQUALS, LESSGREATER, SUM, PRODUCT, PREFIXPREC, CALL, INDEX]

/-- For every fuel, parsing the `return` statement of `return 5` fails
to terminate for the same reason. -/
theorem c3_parseRet_none : ∀ f, parseReturnStatement f c3pRet = none := by
  intro f
  match f with
  | 0 => simp [parseReturnStatement]
  | 1 =>
    simp [parseReturnStatement, parseExpression, pNextToken, c3pRet, pNew, c3retToks,
      lexAt, token.RETURN, token.INT]
  | 2 =>
    simp [parseReturnStatement, parseExpression, runPrefixFn, pNextToken, c3pRet, pNew,
      c3retToks, lexAt, hasPrefixFn,
      token.IDENTIFER, token.RETURN, token.INT, token.BANG, token.MINUS,
      token.TRUE, token.FALSE, token.LPAREN, token.IF, token.FUNCTION, token.STRING,
      token.LBRACKET, token.LBRACE]
  | (g + 3) =>
    have h4 := c3_expr_ret_step g
    have hscan : letReturnScan (g + 2) c3pRetScan = none :=
      letReturnScan_none (g + 2) c3pRetScan (by decide) (by decide) (by decide)
    simp only [c3pRetScan, c3retToks] at h4 hscan
    simp only [parseReturnStatement]
    simp [pNextToken, c3pRet, pNew, c3retToks, lexAt, h4, hscan]

/-- C3: `ParseProgram` does not terminate on the finite inputs
`let x = 5` and `return 5` (no trailing semicolon): for every fuel the
fuelled model returns `none`, because the trailing-semicolon scan of
`parseLetStatement`/`parseReturnStatement` tests only for SEMICOLON and
the lexer yields EOF forever at end of input — contradicting the claim
that the forward scan stops at EOF and `parse_program` terminates on
every finite input. -/
theorem c3_parse_divergence :
    (∀ fuel, ParseProgram fuel c3letToks = none) ∧
    (∀ fuel, ParseProgram fuel c3retToks = none) := by
  constructor
  · intro fuel
    match fuel with
    | 0 => rfl
    | 1 =>
      simp [ParseProgram, parseProgramLoop, parseStatment, pCurrTIs, pNew, pNextToken,
        c3letToks, lexAt, token.LET, token.EOF, token.RETURN]
    | (g + 2) =>
      have h := c3_parseLet_none g
      simp only [c3pLet] at h
      simp [pNew, pNextToken, c3letToks, lexAt, token.LET, token.EOF] at h
      show parseProgramLoop (g + 2) (pNew c3letToks) [] = none
      simp [parseProgramLoop, parseStatment, pCurrTIs, pNew, pNextToken, c3letToks,
        lexAt, token.LET, token.EOF, token.RETURN, h]
  · intro fuel
    match fuel with
    | 0 => rfl
    | 1 =>
      simp [ParseProgram, parseProgramLoop, parseStatment, pCurrTIs, pNew, pNextToken,
        c3retToks, lexAt, token.LET, token.EOF, token.RETURN]
    | (g + 2) =>
      have h := c3_parseRet_none g
      simp only [c3pRet] at h
      simp [pNew, pNextToken, c3retToks, lexAt, token.RETURN, token.EOF] at h
      show parseProgramLoop (g + 2) (pNew c3retToks) [] = none
      simp [parseProgramLoop, parseStatment, pCurrTIs, pNew, pNextToken, c3retToks,
        lexAt, token.LET, token.EOF, token.RETURN, h]
